import Mathlib

/-! # Udemy transcript collector: a verification development of `src/assets/crawling.js`

The user script is asynchronous and event driven.  It is embedded here as pure
functions over explicit environments:

* a promise is a `PromiseState` (pending, fulfilled or rejected);
* the callbacks registered by `WebSocketClient.connect`, `DOMHelper.waitForElements`
  and `WebSocketClient.sendWithResponse` become a state record (timers, observer or
  listener, promises) and handlers that are folded over the events the environment
  delivers (socket events, change notifications, inbound messages, timer expiries);
* an `async` function becomes a `Run`: the trace of effects it performs together
  with the state of the promise it returns;
* the document is read through snapshots (`Dom`), one for each point at which the
  script reads it; DOM nodes are numbers, compared by identity;
* in the traversal every armed timer eventually fires: the script of a wait or of a
  send lists what arrives before the expiry.
-/

set_option linter.unusedVariables false

namespace UdemyCrawling

/-! ## Configuration (`CONFIG`) -/

namespace CONFIG

def WS_URL : String := "ws://localhost:8765"

namespace SELECTORS
def transcript : String := "button[data-purpose='transcript-toggle']"
def sections : String :=
  "div[data-purpose='curriculum-section-container'] div[data-purpose^='section-panel']"
def lectures : String := "li[class^='curriculum-item-link--curriculum-item--']"
def nextButton : String := "#go-to-next-item"
def transcriptText : String := "span[data-purpose='cue-text']"
def sectionTitle : String := ".ud-accordion-panel-title"
def lectureTitle : String := "span[data-purpose='item-title']"
end SELECTORS

namespace TIMEOUTS
def wsConnect : Nat := 5000
def elementWait : Nat := 2000
def transcriptWait : Nat := 3000
def lectureWait : Nat := 7000
def typescriptTextWait : Nat := 10000
def responseWait : Nat := 5000
end TIMEOUTS

end CONFIG

/-! ## Promises -/

/-- State of a JavaScript promise. -/
inductive PromiseState (α : Type) where
  | pending
  | fulfilled (value : α)
  | rejected (reason : String)
  deriving DecidableEq

/-- Calling `resolve` or `reject` on a promise: only the first call has an effect. -/
def PromiseState.settle {α : Type} : PromiseState α → PromiseState α → PromiseState α
  | .pending, q => q
  | p, _ => p

/-! ## Strings -/

/-- Code points that `String.prototype.trim` strips: ECMAScript `WhiteSpace` and
`LineTerminator`. -/
def isJsWhiteSpace (c : Char) : Bool :=
  let n := c.toNat
  n == 0x09 || n == 0x0A || n == 0x0B || n == 0x0C || n == 0x0D || n == 0x20 || n == 0xA0 ||
  n == 0x1680 || (0x2000 ≤ n && n ≤ 0x200A) || n == 0x2028 || n == 0x2029 || n == 0x202F ||
  n == 0x205F || n == 0x3000 || n == 0xFEFF

/-- The method `String.prototype.trim`. -/
def jsTrim (s : String) : String :=
  String.mk ((s.data.dropWhile isJsWhiteSpace).rdropWhile isJsWhiteSpace)

/-- The expression `el?.innerText.trim() || dflt`: `el` is the result of a `querySelector`
(`none` for `null`), and the empty string is falsy. -/
def trimmedTextOr (innerText : Option String) (dflt : String) : String :=
  match innerText with
  | none => dflt
  | some t => if (jsTrim t).length = 0 then dflt else jsTrim t

/-! ## `DOMHelper.waitForElements` -/

/-- DOM nodes are compared by identity. -/
abbrev Node := Nat

/-- What the promise executor of `waitForElements` keeps between callbacks. -/
structure WaitState (α : Type) where
  /-- a `MutationObserver` is connected -/
  observer : Bool
  /-- the timeout timer is armed -/
  timer : Bool
  promise : PromiseState (List α)
  deriving DecidableEq

/-- What the environment can deliver to a waiter: a change notification (with the document as it
is then), or the expiry of the timeout. -/
inductive WaitEvent (D : Type) where
  | mutation (d : D)
  | timeout

/-- Options of `waitForElements`.  `parent` only scopes the observer and is not modelled; a
`condition` may read the live document and may throw. -/
structure WaitOptions (D α : Type) where
  buttonElement : Option Node := none
  timeout : Nat := CONFIG.TIMEOUTS.elementWait
  condition : Option (D → List α → Except String Bool) := none

/-- What the environment does during one `waitForElements` call. -/
structure WaitEnv (D : Type) where
  /-- the error `buttonElement.click()` throws, if it throws -/
  clickError : Option String := none
  /-- the document at the immediate check -/
  dom0 : D
  events : List (WaitEvent D)

namespace DOMHelper

/-- The local function `cleanup`. -/
def cleanup {α : Type} (s : WaitState α) : WaitState α :=
  { s with timer := false, observer := false }

/-- The local function `checkElements`, at document `d`; `query d` is
`document.querySelectorAll(selector)`.  An error is what the condition throws. -/
def checkElements {D α : Type} (query : D → List α)
    (condition : Option (D → List α → Except String Bool)) (d : D) :
    Except String (Option (List α)) :=
  let elements := query d
  if elements.length > 0 then
    match condition with
    | none => .ok (some elements)
    | some c =>
      match c d elements with
      | .ok true => .ok (some elements)
      | .ok false => .ok none
      | .error e => .error e
  else .ok none

def timeoutMessage (timeout : Nat) (selector : String) : String :=
  "Element not found within " ++ toString timeout ++ "ms (selector: " ++ selector ++ ")"

/-- The callback of the `MutationObserver`.  A disconnected observer delivers nothing; an error
thrown by the condition leaves the promise untouched. -/
def onMutation {D α : Type} (query : D → List α)
    (condition : Option (D → List α → Except String Bool)) (s : WaitState α) (d : D) :
    WaitState α :=
  if s.observer then
    match checkElements query condition d with
    | .ok (some element) => { cleanup s with promise := s.promise.settle (.fulfilled element) }
    | _ => s
  else s

/-- The callback of `setTimeout`; a cleared timer does not fire. -/
def onTimeout {α : Type} (selector : String) (timeout : Nat) (s : WaitState α) : WaitState α :=
  if s.timer then
    { cleanup s with promise := s.promise.settle (.rejected (timeoutMessage timeout selector)) }
  else s

def dispatch {D α : Type} (query : D → List α) (selector : String) (opts : WaitOptions D α)
    (s : WaitState α) : WaitEvent D → WaitState α
  | .mutation d => onMutation query opts.condition s d
  | .timeout => onTimeout selector opts.timeout s

/-- The local function `observe`: the immediate check, and when it fails the observer and the
timer are set up.  An error is what the condition throws at the immediate check. -/
def observe {D α : Type} (query : D → List α) (opts : WaitOptions D α) (d0 : D) :
    Except String (WaitState α) :=
  match checkElements query opts.condition d0 with
  | .error e => .error e
  | .ok (some element) =>
    .ok { observer := false, timer := false, promise := .fulfilled element }
  | .ok none => .ok { observer := true, timer := true, promise := .pending }

/-- The function `DOMHelper.waitForElements`: the state of the waiter after the environment has
delivered `env.events`. -/
def waitForElements {D α : Type} (query : D → List α) (selector : String)
    (opts : WaitOptions D α) (env : WaitEnv D) : WaitState α :=
  match opts.buttonElement with
  | some _ =>
    match env.clickError with
    | some message =>
      { observer := false, timer := false,
        promise := .rejected ("Failed to click button: " ++ message) }
    | none =>
      match observe query opts env.dom0 with
      | .ok s => env.events.foldl (dispatch query selector opts) s
      | .error message =>
        { observer := false, timer := false,
          promise := .rejected ("Failed to click button: " ++ message) }
  | none =>
    match observe query opts env.dom0 with
    | .ok s => env.events.foldl (dispatch query selector opts) s
    | .error message => { observer := false, timer := false, promise := .rejected message }

end DOMHelper

/-! ## `WebSocketClient` -/

inductive ReadyState where
  | CONNECTING | OPEN | CLOSING | CLOSED
  deriving DecidableEq

/-- A `WebSocket` object, as far as the script looks at it. -/
structure Socket where
  url : String
  readyState : ReadyState
  deriving DecidableEq

structure WebSocketClient where
  url : String
  maxRetries : Nat := 3
  socket : Option Socket := none
  deriving DecidableEq

/-- One call of the local function `tryConnect` of `connect`: its socket, its connect timer and
its promise. -/
structure Attempt where
  /-- the connect timer of the socket is armed -/
  timer : Bool
  /-- the call whose `resolve` and `reject` the promise of this call is chained to by
  `tryConnect().then(resolve).catch(reject)`; `none` for the call made by `connect` itself -/
  parent : Option Nat
  promise : PromiseState Socket
  deriving DecidableEq

/-- A timer set by the local function `retry`. -/
structure RetryTimer where
  ms : Nat
  /-- the call of `tryConnect` whose `retry` set the timer -/
  owner : Nat
  /-- the timer has not fired yet -/
  armed : Bool
  deriving DecidableEq

/-- Effects of `connect`; the `console.log` calls are not recorded. -/
inductive ConnectEffect where
  /-- `new WebSocket(url)` -/
  | newWebSocket (url : String)
  /-- `ws.close()` on the socket of a call, by its connect timer -/
  | close (attempt : Nat)
  /-- `setTimeout(..., ms)` by `retry`, before the next `tryConnect` -/
  | delay (ms : Nat)
  deriving DecidableEq

/-- What the environment can deliver during `connect`: the `open` or the `error` event of the
socket of a call, the expiry of its connect timer, the expiry of a timer set by `retry`.  Calls
and timers are numbered in the order of their creation. -/
inductive ConnectEvent where
  | socketOpen (attempt : Nat)
  | socketError (attempt : Nat)
  | connectTimer (attempt : Nat)
  | retryTimer (timer : Nat)
  deriving DecidableEq

/-- What `connect` keeps between callbacks: the shared counter `retries`, the calls of
`tryConnect` made so far, the timers set by `retry`, the field `this.socket`, and the effects
so far. -/
structure ConnectState where
  retries : Nat
  attempts : List Attempt
  timers : List RetryTimer
  socket : Option Socket
  trace : List ConnectEffect
  deriving DecidableEq

/-- The promise that `connect` returns: the promise of the first call of `tryConnect`. -/
def ConnectState.promise (s : ConnectState) : PromiseState Socket :=
  match s.attempts[0]? with
  | some a => a.promise
  | none => .pending

/-- A message event of the socket, after `JSON.parse` (or the raw data when it does not parse):
`null`, or a value whose `messageId` property is the string `messageId` (`none` when the
property is missing or is not a string). -/
inductive Response where
  | null
  | value (messageId : Option String) (body : String)
  deriving DecidableEq

inductive SocketEvent where
  | message (response : Response)
  | timeout
  deriving DecidableEq

/-- The object `{ ...data, messageId }`. -/
structure Outbound (P : Type) where
  data : P
  messageId : String
  deriving DecidableEq

/-- What the promise executor of `sendWithResponse` keeps between callbacks. -/
structure SendState (P : Type) where
  /-- `handleMessage` is registered on the socket -/
  listener : Bool
  /-- the response timer is armed -/
  timer : Bool
  /-- number of times `cleanup` ran -/
  cleanups : Nat
  /-- argument of `socket.send`, before `JSON.stringify` -/
  transmitted : Option (Outbound P)
  promise : PromiseState Response
  deriving DecidableEq

/-- What the environment does around one `sendWithResponse` call. -/
structure SendEnv where
  /-- value of `Date.now()` -/
  now : Nat
  events : List SocketEvent

namespace WebSocketClient

namespace Connect

/-- Calling `resolve` or `reject` of the call `id` with `outcome`: a settled promise ignores it;
a pending one takes it and hands it on to the `resolve` or `reject` it is chained to.  The first
argument bounds the length of the chain. -/
def settle (outcome : PromiseState Socket) : Nat → Nat → List Attempt → List Attempt
  | 0, _, attempts => attempts
  | fuel + 1, id, attempts =>
    match attempts[id]? with
    | none => attempts
    | some a =>
      match a.promise with
      | .pending =>
        match a.parent with
        | some p => settle outcome fuel p (attempts.set id { a with promise := outcome })
        | none => attempts.set id { a with promise := outcome }
      | _ => attempts

/-- The connect timer of the call `id` is no longer armed: `clearTimeout(timeout)`, or the timer
has fired. -/
def disarm (id : Nat) (s : ConnectState) : ConnectState :=
  match s.attempts[id]? with
  | some a => { s with attempts := s.attempts.set id { a with timer := false } }
  | none => s

/-- The local function `tryConnect`: a new socket with its connect timer and its promise. -/
def tryConnect (url : String) (parent : Option Nat) (s : ConnectState) : ConnectState :=
  { s with
    attempts := s.attempts ++ [{ timer := true, parent := parent, promise := .pending }]
    trace := s.trace ++ [.newWebSocket url] }

/-- The local function `retry` of the call `id`. -/
def retry (maxRetries : Nat) (id : Nat) (s : ConnectState) : ConnectState :=
  if s.retries < maxRetries then
    { s with
      retries := s.retries + 1
      timers := s.timers ++ [{ ms := 1000 * (s.retries + 1), owner := id, armed := true }]
      trace := s.trace ++ [.delay (1000 * (s.retries + 1))] }
  else
    { s with
      attempts :=
        settle (.rejected "Failed to connect to WebSocket server") s.attempts.length id
          s.attempts }

/-- The handler `ws.onopen` of the call `id`. -/
def onopen (url : String) (id : Nat) (s : ConnectState) : ConnectState :=
  match s.attempts[id]? with
  | none => s
  | some _ =>
    { disarm id s with
      socket := some { url := url, readyState := .OPEN }
      attempts :=
        settle (.fulfilled { url := url, readyState := .OPEN }) s.attempts.length id
          (disarm id s).attempts }

/-- The handler `ws.onerror` of the call `id`. -/
def onerror (maxRetries : Nat) (id : Nat) (s : ConnectState) : ConnectState :=
  match s.attempts[id]? with
  | none => s
  | some _ => retry maxRetries id (disarm id s)

/-- The callback of the connect timer of the call `id`; a cleared timer does not fire. -/
def onConnectTimer (maxRetries : Nat) (id : Nat) (s : ConnectState) : ConnectState :=
  match s.attempts[id]? with
  | none => s
  | some a =>
    if a.timer then
      retry maxRetries id { disarm id s with trace := s.trace ++ [.close id] }
    else s

/-- The callback of the timer `j` set by `retry`: the next `tryConnect`, chained to the call
whose `retry` set the timer. -/
def onRetryTimer (url : String) (j : Nat) (s : ConnectState) : ConnectState :=
  match s.timers[j]? with
  | none => s
  | some t =>
    if t.armed then
      tryConnect url (some t.owner) { s with timers := s.timers.set j { t with armed := false } }
    else s

def dispatch (client : WebSocketClient) (s : ConnectState) : ConnectEvent → ConnectState
  | .socketOpen id => onopen client.url id s
  | .socketError id => onerror client.maxRetries id s
  | .connectTimer id => onConnectTimer client.maxRetries id s
  | .retryTimer j => onRetryTimer client.url j s

end Connect

/-- The method `connect`: the state after the environment has delivered `events`. -/
def connect (client : WebSocketClient) (events : List ConnectEvent) : ConnectState :=
  events.foldl (Connect.dispatch client)
    (Connect.tryConnect client.url none
      { retries := 0, attempts := [], timers := [], socket := client.socket, trace := [] })

/-- The method `isHealthy`. -/
def isHealthy (client : WebSocketClient) : Bool :=
  match client.socket with
  | some socket => socket.readyState == .OPEN
  | none => false

/-- The expression `Date.now().toString()`. -/
def newMessageId (now : Nat) : String := toString now

namespace Send

/-- The local function `cleanup`. -/
def cleanup {P : Type} (s : SendState P) : SendState P :=
  { s with timer := false, listener := false, cleanups := s.cleanups + 1 }

/-- The local function `handleMessage`.  A removed listener receives nothing; reading
`messageId` of `null` throws inside the listener, which leaves the promise untouched. -/
def handleMessage {P : Type} (messageId : String) (s : SendState P) (response : Response) :
    SendState P :=
  if s.listener then
    match response with
    | .null => s
    | .value id _ =>
      if id = some messageId then
        { cleanup s with promise := s.promise.settle (.fulfilled response) }
      else s
  else s

/-- The callback of `setTimeout`; a cleared timer does not fire. -/
def onTimeout {P : Type} (s : SendState P) : SendState P :=
  if s.timer then
    { cleanup s with promise := s.promise.settle (.rejected "Socket response timeout") }
  else s

def dispatch {P : Type} (messageId : String) (s : SendState P) : SocketEvent → SendState P
  | .message response => handleMessage messageId s response
  | .timeout => onTimeout s

end Send

/-- The method `sendWithResponse`: the state of the call after the environment has delivered
`env.events`.  The argument `timeout` only fixes when the timer event is delivered. -/
def sendWithResponse {P : Type} (client : WebSocketClient) (data : P) (env : SendEnv) :
    SendState P :=
  if !client.isHealthy then
    { listener := false, timer := false, cleanups := 0, transmitted := none,
      promise := .rejected "WebSocket connection is not open" }
  else
    let messageId := newMessageId env.now
    let dataToSend : Outbound P := { data := data, messageId := messageId }
    env.events.foldl (Send.dispatch messageId)
      { listener := true, timer := true, cleanups := 0, transmitted := some dataToSend,
        promise := .pending }

end WebSocketClient

/-! ## The document and the traversal environment -/

/-- A snapshot of the document, through the four things the script does with it. -/
structure Dom where
  /-- the call `document.querySelectorAll(selector)` -/
  querySelectorAll : String → List Node
  /-- the call `element.querySelectorAll(selector)` -/
  descendants : Node → String → List Node
  /-- the call `element.getAttribute(name)` -/
  getAttribute : Node → String → Option String
  /-- the property `element.innerText` -/
  innerText : Node → String

/-- The call `document.querySelector(selector)`. -/
def Dom.querySelector (d : Dom) (selector : String) : Option Node :=
  (d.querySelectorAll selector).head?

/-- The call `element.querySelector(selector)`. -/
def Dom.descendant (d : Dom) (element : Node) (selector : String) : Option Node :=
  (d.descendants element selector).head?

/-- What the document does during one awaited `waitForElements`: the change notifications that
arrive before the timer expires; after them the timer fires. -/
structure WaitScript where
  clickError : Option String := none
  dom0 : Dom
  mutations : List Dom := []

def WaitScript.toEnv (w : WaitScript) : WaitEnv Dom :=
  { clickError := w.clickError, dom0 := w.dom0,
    events := w.mutations.map WaitEvent.mutation ++ [WaitEvent.timeout] }

/-- What the server does during one awaited `sendWithResponse`: the messages that arrive before
the response timer expires; after them the timer fires. -/
structure SendScript where
  /-- state of the socket when `isHealthy` is evaluated -/
  socket : Option Socket
  now : Nat
  inbound : List Response := []

def SendScript.toEnv (w : SendScript) : SendEnv :=
  { now := w.now, events := w.inbound.map SocketEvent.message ++ [SocketEvent.timeout] }

/-- The object literal passed to `sendWithResponse` by `processLecture`; `sectionTitle` is its
property `section`. -/
structure SaveTranscript where
  action : String
  sectionTitle : String
  title : String
  transcripts : List String
  deriving DecidableEq

/-- Observable effects of the traversal. -/
inductive Ev where
  /-- entry of `processLecture(lecture, ..., index)` -/
  | processLecture (index : Nat) (lecture : Node)
  /-- entry of `navigateToNextLecture()` -/
  | navigateToNextLecture
  /-- the call `buttonElement.click()` -/
  | click (button : Node)
  /-- the call `socket.send(JSON.stringify(dataToSend))` -/
  | send (message : Outbound SaveTranscript)
  /-- the promise of `sendWithResponse` resolved with `response` -/
  | response (response : Response)
  /-- the call `console.log(...)` -/
  | log (text : String)
  deriving DecidableEq

/-- An `async` function call: the effects it performed and the promise it returned. -/
structure Run (α : Type) where
  trace : List Ev
  promise : PromiseState α

namespace Run

/-- An `async` function that returns `a` without any effect. -/
def ret {α : Type} (a : α) : Run α := { trace := [], promise := .fulfilled a }

/-- The statement `throw new Error(message)`. -/
def throw {α : Type} (message : String) : Run α := { trace := [], promise := .rejected message }

def emit (e : Ev) : Run Unit := { trace := [e], promise := .fulfilled () }

/-- The statement `const a = await r; k(a)` in an `async` function: a rejection propagates, and
nothing follows a promise that never settles. -/
def await {α β : Type} (r : Run α) (k : α → Run β) : Run β :=
  match r.promise with
  | .fulfilled a => { trace := r.trace ++ (k a).trace, promise := (k a).promise }
  | .rejected e => { trace := r.trace, promise := .rejected e }
  | .pending => { trace := r.trace, promise := .pending }

/-- The statement `try { r } catch (error) { handler(error.message) }`. -/
def tryCatch {α : Type} (r : Run α) (handler : String → Run α) : Run α :=
  match r.promise with
  | .rejected e => { trace := r.trace ++ (handler e).trace, promise := (handler e).promise }
  | _ => r

end Run

/-- An awaited `DOMHelper.waitForElements(selector, opts)` on the document. -/
def awaitElements (selector : String) (opts : WaitOptions Dom Node) (w : WaitScript) :
    Run (List Node) :=
  { trace := match opts.buttonElement with
      | some b => [Ev.click b]
      | none => []
    promise :=
      (DOMHelper.waitForElements (fun d => d.querySelectorAll selector) selector opts
        w.toEnv).promise }

/-- An awaited `this.wsClient.sendWithResponse(data)`. -/
def awaitResponse (wsClient : WebSocketClient) (data : SaveTranscript) (w : SendScript) :
    Run Response :=
  let s := WebSocketClient.sendWithResponse { wsClient with socket := w.socket } data w.toEnv
  { trace := (match s.transmitted with
      | some m => [Ev.send m]
      | none => []) ++
      (match s.promise with
      | .fulfilled r => [Ev.response r]
      | _ => [])
    promise := s.promise }

/-- What the environment does while the loop of `collectTranscriptsForSection` handles one
item. -/
structure LectureEnv where
  /-- the document when `processLecture` starts -/
  dom : Dom
  /-- wait for the transcript buttons -/
  buttons : WaitScript
  /-- wait for the transcript text, after the click -/
  texts : WaitScript
  /-- the document when the transcript text is read -/
  domTexts : Dom
  send : SendScript
  /-- wait for the item to be reported as current -/
  confirm : WaitScript
  /-- the document when `navigateToNextLecture` starts -/
  domNav : Dom
  nav : WaitScript
  /-- the document when `expandSection` runs after the navigation -/
  domExpand : Dom
  expand : WaitScript

/-- What the environment does during one `collectTranscriptsForSection` call. -/
structure World where
  /-- the document at the call -/
  dom0 : Dom
  expand0 : WaitScript
  /-- the document after the first `expandSection` -/
  dom1 : Dom
  /-- the environment while item `i` of the section is handled -/
  item : Nat → LectureEnv

/-! ## `TranscriptCollector` -/

namespace TranscriptCollector

/-- The method `expandSection`, called when the document is `dom`. -/
def expandSection (dom : Dom) (w : WaitScript) (sectionEl : Node) : Run Unit :=
  match dom.descendant sectionEl "button.ud-btn.js-panel-toggler" with
  | some toggleButton =>
    if dom.getAttribute toggleButton "aria-expanded" = some "false" then
      Run.await
        (awaitElements CONFIG.SELECTORS.sections
          { buttonElement := some toggleButton
            condition := some fun d _ =>
              .ok (d.getAttribute toggleButton "aria-expanded" == some "true") } w)
        fun _ => Run.ret ()
    else Run.ret ()
  | none => Run.ret ()

/-- The array `transcriptTexts` that `processLecture` builds from the document. -/
def transcriptTexts (d : Dom) : List String :=
  ((d.querySelectorAll CONFIG.SELECTORS.transcriptText).map fun el => jsTrim (d.innerText el)).filter
    fun text => text.length > 0

/-- The constant `lectureTitle` of `processLecture`. -/
def lectureTitle (d : Dom) (lecture : Node) : String :=
  trimmedTextOr ((d.descendant lecture CONFIG.SELECTORS.lectureTitle).map d.innerText)
    "Unknown Lecture"

/-- The condition of the last wait of `processLecture`; reading an attribute of `el[index]`
throws when there is no such element. -/
def isCurrent (index : Nat) (d : Dom) (el : List Node) : Except String Bool :=
  match el[index]? with
  | some e => .ok (d.getAttribute e "aria-current" == some "true")
  | none => .error "Cannot read properties of undefined (reading 'getAttribute')"

/-- The body of the `try` block of `processLecture`. -/
def processLectureBody (env : LectureEnv) (wsClient : WebSocketClient) (title : String)
    (sectionTitle : String) (index : Nat) : Run Unit :=
  Run.await
    (awaitElements CONFIG.SELECTORS.transcript { timeout := CONFIG.TIMEOUTS.transcriptWait }
      env.buttons)
    fun transcriptButtons =>
  match transcriptButtons with
  | [] => Run.emit (.log ("⚠️ No transcript found for: " ++ title ++ ", skipping..."))
  | button :: _ =>
    Run.await (Run.emit (.log ("🔎 Found transcript button for: " ++ title))) fun _ =>
    Run.await
      (awaitElements CONFIG.SELECTORS.transcriptText
        { buttonElement := some button, timeout := CONFIG.TIMEOUTS.typescriptTextWait } env.texts)
      fun _ =>
    Run.await (Run.emit (.log ("✅ Transcript found for: " ++ title))) fun _ =>
    if (transcriptTexts env.domTexts).length = 0 then
      Run.emit (.log ("⚠️ No transcript available for: " ++ title ++ ", skipping..."))
    else
      Run.await
        (awaitResponse wsClient
          { action := "save_transcript", sectionTitle := sectionTitle, title := title,
            transcripts := transcriptTexts env.domTexts } env.send)
        fun _ =>
      Run.await (Run.emit (.log ("📤 Sent data for: " ++ title))) fun _ =>
      Run.await
        (awaitElements CONFIG.SELECTORS.lectures
          { buttonElement := some button, condition := some (isCurrent index) } env.confirm)
        fun _ => Run.ret ()

/-- The method `processLecture`. -/
def processLecture (env : LectureEnv) (wsClient : WebSocketClient) (lecture : Node)
    (sectionEl : Node) (sectionTitle : String) (offset index : Nat) : Run Unit :=
  Run.await (Run.emit (.processLecture index lecture)) fun _ =>
  Run.tryCatch
    (processLectureBody env wsClient (lectureTitle env.dom lecture) sectionTitle index)
    fun message =>
      Run.emit
        (.log ("⚠️ Error processing lecture " ++ lectureTitle env.dom lecture ++ ": " ++ message))

/-- The method `navigateToNextLecture`, called when the document is `dom`. -/
def navigateToNextLecture (dom : Dom) (w : WaitScript) : Run Unit :=
  Run.await (Run.emit .navigateToNextLecture) fun _ =>
  match dom.querySelector CONFIG.SELECTORS.nextButton with
  | none => Run.throw "Next lecture button not found"
  | some nextButton =>
    Run.tryCatch
      (Run.await
        (awaitElements CONFIG.SELECTORS.nextButton
          { buttonElement := some nextButton
            condition := some fun _ el => .ok (el.head? != some nextButton)
            timeout := CONFIG.TIMEOUTS.lectureWait } w)
        fun _ => Run.ret ())
      fun message =>
        Run.await (Run.emit (.log ("⚠️ Error navigating to the next lecture: " ++ message)))
          fun _ => Run.throw message

/-- The `for` loop of `collectTranscriptsForSection` over the remaining entries of
`lectureArray.entries()`, with the current value of `startProcessing`. -/
def collectLoop (w : World) (wsClient : WebSocketClient) (sectionEl : Node)
    (sectionTitle : String) (lectureArray : List Node) (currentLecture : Option Node) :
    List (Nat × Node) → Bool → Run Unit
  | [], _ => Run.ret ()
  | (i, lecture) :: rest, startProcessing =>
    if !startProcessing && some lecture != currentLecture then
      collectLoop w wsClient sectionEl sectionTitle lectureArray currentLecture rest
        startProcessing
    else
      Run.await (processLecture (w.item i) wsClient lecture sectionEl sectionTitle 0 i) fun _ =>
      match lectureArray[i + 1]? with
      | none => Run.emit (.log ("✅ Section " ++ sectionTitle ++ " completed"))
      | some _ =>
        Run.await (navigateToNextLecture (w.item i).domNav (w.item i).nav) fun _ =>
        Run.await (expandSection (w.item i).domExpand (w.item i).expand sectionEl) fun _ =>
        collectLoop w wsClient sectionEl sectionTitle lectureArray currentLecture rest true

/-- The value of `startProcessing` before the loop: `lectureArray.includes(currentLecture)`. -/
def includesCurrent (lectureArray : List Node) (currentLecture : Option Node) : Bool :=
  lectureArray.any fun lecture => some lecture == currentLecture

/-- The method `collectTranscriptsForSection`. -/
def collectTranscriptsForSection (w : World) (wsClient : WebSocketClient) (sectionIndex : Nat) :
    Run Unit :=
  let sections := w.dom0.querySelectorAll CONFIG.SELECTORS.sections
  if h : sectionIndex ≥ sections.length then Run.throw "Invalid section index"
  else
    let sectionEl := sections[sectionIndex]
    Run.await (expandSection w.dom0 w.expand0 sectionEl) fun _ =>
    let sectionTitle :=
      trimmedTextOr ((w.dom1.descendant sectionEl CONFIG.SELECTORS.sectionTitle).map w.dom1.innerText)
        "Unknown Section"
    Run.await (Run.emit (.log ("📂 Processing section: " ++ sectionTitle))) fun _ =>
    let lectureArray := w.dom1.descendants sectionEl CONFIG.SELECTORS.lectures
    let currentLecture := w.dom1.querySelector "li[aria-current=\"true\"]"
    collectLoop w wsClient sectionEl sectionTitle lectureArray currentLecture lectureArray.enum
      (includesCurrent lectureArray currentLecture)

end TranscriptCollector

/-! ## Reading traces, and the notions the statements use -/

/-- The messages handed to `socket.send`, in order. -/
def sentMessages (trace : List Ev) : List (Outbound SaveTranscript) :=
  trace.filterMap fun e =>
    match e with
    | .send m => some m
    | _ => none

/-- A string neither starts nor ends with a character that `trim` strips. -/
def Trimmed (t : String) : Prop :=
  (∀ c, t.data.head? = some c → isJsWhiteSpace c = false) ∧
  (∀ c, t.data.getLast? = some c → isJsWhiteSpace c = false)

/-- The check of `checkElements` succeeds at document `d`, as a boolean. -/
def DOMHelper.found {D α : Type} (query : D → List α)
    (condition : Option (D → List α → Except String Bool)) (d : D) : Bool :=
  match DOMHelper.checkElements query condition d with
  | .ok (some _) => true
  | _ => false

/-- Options of `waitForElements` with a predicate that never throws. -/
def DOMHelper.totalOptions {D α : Type} (buttonElement : Option Node) (timeout : Nat)
    (predicate : Option (D → List α → Bool)) : WaitOptions D α :=
  { buttonElement := buttonElement, timeout := timeout,
    condition := predicate.map fun p d els => .ok (p d els) }

/-- At document `d` the selector matches something and the predicate, when one is supplied,
holds of the matches. -/
def DOMHelper.satisfied {D α : Type} (query : D → List α)
    (predicate : Option (D → List α → Bool)) (d : D) : Bool :=
  (query d).length > 0 &&
    match predicate with
    | none => true
    | some p => p d (query d)

/-- The test `response.messageId === messageId` of `handleMessage`. -/
def Response.answers (messageId : String) : Response → Bool
  | .null => false
  | .value id _ => id == some messageId

/-- Value of a decimal numeral read from the left, starting from `acc`. -/
def decimalValue (acc : Nat) (digits : List Char) : Nat :=
  digits.foldl (fun a c => 10 * a + (c.toNat - 48)) acc

/-- Number of `new WebSocket(url)` calls in a trace of `connect`. -/
def connectionAttempts (trace : List ConnectEffect) : Nat :=
  trace.countP fun e =>
    match e with
    | .newWebSocket _ => true
    | _ => false

/-- The delays of the `setTimeout` calls of `retry`, in order. -/
def retryDelays (trace : List ConnectEffect) : List Nat :=
  trace.filterMap fun e =>
    match e with
    | .delay ms => some ms
    | _ => none

/-- The environment in which the sockets of the first `k` calls of `tryConnect` deliver their
`error` event and the timer set by each `retry` fires. -/
def erroringAttempts : Nat → List ConnectEvent
  | 0 => []
  | k + 1 => erroringAttempts k ++ [.socketError k, .retryTimer k]

/-- The effects of `k + 1` connection attempts with a wait of `1000 * j` ms before the `j`-th
retry. -/
def backoffTrace (url : String) : Nat → List ConnectEffect
  | 0 => [.newWebSocket url]
  | k + 1 => backoffTrace url k ++ [.delay (1000 * (k + 1)), .newWebSocket url]

/-- The state of `connect` after `k` failed attempts, as far as the next steps depend on it: the
counter, the calls made, all of them pending and chained one to the other, the connect timers
of all but the last cleared, the timers of `retry` all fired, and the effects so far. -/
def ErroringInvariant (url : String) (k : Nat) (s : ConnectState) : Prop :=
  s.retries = k ∧ s.attempts.length = k + 1 ∧ s.timers.length = k ∧
  s.trace = backoffTrace url k ∧
  (∀ t ∈ s.timers, t.armed = false) ∧
  ∀ j a, s.attempts[j]? = some a →
    a.promise = .pending ∧ (a.parent = if j = 0 then none else some (j - 1)) ∧
      (j < k → a.timer = false)

/-- The `processLecture` calls of a trace, in order: index and item. -/
def processedLectures (trace : List Ev) : List (Nat × Node) :=
  trace.filterMap fun e =>
    match e with
    | .processLecture index lecture => some (index, lecture)
    | _ => none

/-- An event of the connection: a transmission or a resolved response. -/
def Ev.isCommunication : Ev → Bool
  | .send _ => true
  | .response _ => true
  | _ => false

/-- The events of the connection in a trace, in order. -/
def communications (trace : List Ev) : List Ev := trace.filter Ev.isCommunication

/-- Every transmission is directly followed by the response that answers it, before anything
else happens on the connection. -/
def acknowledgedInTurn : List Ev → Bool
  | [] => true
  | .send m :: .response r :: rest => r.answers m.messageId && acknowledgedInTurn rest
  | _ => false

/-- Every event of the run satisfies `p`. -/
def Run.Only {α : Type} (p : Ev → Prop) (r : Run α) : Prop := ∀ e ∈ r.trace, p e

/-- An event that is neither a `processLecture` call nor an event of the connection. -/
def Ev.isQuiet : Ev → Bool
  | .processLecture _ _ => false
  | .send _ => false
  | .response _ => false
  | _ => true

/-- The observations of the document during a wait: the immediate check, then one per change
notification. -/
def WaitScript.observations (w : WaitScript) : List Dom := w.dom0 :: w.mutations

/-- The transcript control of an item: the first transcript button of the first observation,
within the wait, that shows one. -/
def LectureEnv.transcriptControl (env : LectureEnv) : Option Node :=
  (env.buttons.observations.find? fun d =>
    (d.querySelectorAll CONFIG.SELECTORS.transcript).length > 0).bind fun d =>
      (d.querySelectorAll CONFIG.SELECTORS.transcript).head?

/-- The click on the control reveals transcript text: the click does not throw and some
observation within the wait shows a text element. -/
def LectureEnv.revealsText (env : LectureEnv) : Bool :=
  env.texts.clickError.isNone &&
    env.texts.observations.any fun d =>
      (d.querySelectorAll CONFIG.SELECTORS.transcriptText).length > 0

/-- The revealed transcript of an item: its non-empty trimmed lines; `none` when the item has
no transcript control or the control reveals no text. -/
def LectureEnv.revealedTranscript (env : LectureEnv) : Option (List String) :=
  if env.transcriptControl.isSome && env.revealsText then
    some (TranscriptCollector.transcriptTexts env.domTexts)
  else none

/-- The unit an item yields: none unless its revealed transcript has a line. -/
def LectureEnv.unit (env : LectureEnv) (sectionTitle : String) (lecture : Node) :
    Option SaveTranscript :=
  match env.revealedTranscript with
  | some (line :: lines) =>
    some { action := "save_transcript", sectionTitle := sectionTitle,
           title := TranscriptCollector.lectureTitle env.dom lecture,
           transcripts := line :: lines }
  | _ => none

/-- The response that acknowledges a transmission: the first inbound message, within the
response wait, that carries its `messageId`. -/
def SendScript.acknowledgement (s : SendScript) : Option Response :=
  s.inbound.find? (Response.answers (WebSocketClient.newMessageId s.now))

/-- A functioning connection: the socket is open and the transmission is acknowledged. -/
def SendScript.Functioning (s : SendScript) : Prop :=
  (∃ url, s.socket = some { url := url, readyState := .OPEN }) ∧ s.acknowledgement.isSome = true

/-- The events of the connection that item `index` contributes when it is processed: those of
the one `sendWithResponse` call for its unit. -/
def World.exchange (w : World) (wsClient : WebSocketClient) (sectionTitle : String)
    (entry : Nat × Node) : List Ev :=
  match (w.item entry.1).unit sectionTitle entry.2 with
  | some data => (awaitResponse wsClient data (w.item entry.1).send).trace
  | none => []

/-- The section element that `collectTranscriptsForSection(sectionIndex)` works on. -/
def World.sectionElement (w : World) (sectionIndex : Nat) : Option Node :=
  (w.dom0.querySelectorAll CONFIG.SELECTORS.sections)[sectionIndex]?

/-- The title of that section, as read after it is expanded. -/
def World.sectionTitle (w : World) (sectionIndex : Nat) : String :=
  trimmedTextOr
    (((w.sectionElement sectionIndex).bind fun s =>
      w.dom1.descendant s CONFIG.SELECTORS.sectionTitle).map w.dom1.innerText)
    "Unknown Section"

/-- The items of that section, in document order. -/
def World.lectures (w : World) (sectionIndex : Nat) : List Node :=
  match w.sectionElement sectionIndex with
  | some s => w.dom1.descendants s CONFIG.SELECTORS.lectures
  | none => []

/-- The item that the document marks as current when the loop starts. -/
def World.currentLecture (w : World) : Option Node :=
  w.dom1.querySelector "li[aria-current=\"true\"]"

/-- The part of the loop body of `collectTranscriptsForSection` that follows `processLecture`
for the item of index `i`, with the iterations over `rest` after it. -/
def TranscriptCollector.afterLecture (w : World) (wsClient : WebSocketClient) (sectionEl : Node)
    (sectionTitle : String) (lectureArray : List Node) (currentLecture : Option Node) (i : Nat)
    (rest : List (Nat × Node)) : Run Unit :=
  match lectureArray[i + 1]? with
  | none => Run.emit (.log ("✅ Section " ++ sectionTitle ++ " completed"))
  | some _ =>
    Run.await (TranscriptCollector.navigateToNextLecture (w.item i).domNav (w.item i).nav)
      fun _ =>
    Run.await
      (TranscriptCollector.expandSection (w.item i).domExpand (w.item i).expand sectionEl)
      fun _ =>
    TranscriptCollector.collectLoop w wsClient sectionEl sectionTitle lectureArray currentLecture
      rest true

/-! ## Sample documents and runs -/

/-- A document with one section (node 100, title node 101, title text `Intro`) whose items are
`lectures`; item `k` has the title node `k + 10`.  `current` is the item marked current,
`buttons` the transcript buttons shown, `cues` the transcript text elements with their text,
`next` the next-item control. -/
def sampleDom (lectures : List Node) (current : Option Node) (buttons : List Node)
    (cues : List (Node × String)) (next : List Node) : Dom where
  querySelectorAll sel :=
    if sel = CONFIG.SELECTORS.sections then [100]
    else if sel = CONFIG.SELECTORS.lectures then lectures
    else if sel = CONFIG.SELECTORS.transcript then buttons
    else if sel = CONFIG.SELECTORS.transcriptText then cues.map Prod.fst
    else if sel = CONFIG.SELECTORS.nextButton then next
    else if sel = "li[aria-current=\"true\"]" then current.toList
    else []
  descendants el sel :=
    if el = 100 ∧ sel = CONFIG.SELECTORS.lectures then lectures
    else if el = 100 ∧ sel = CONFIG.SELECTORS.sectionTitle then [101]
    else if el ∈ lectures ∧ sel = CONFIG.SELECTORS.lectureTitle then [el + 10]
    else []
  getAttribute el name :=
    if name = "aria-current" ∧ some el = current then some "true" else none
  innerText el :=
    if el = 101 then " Intro " else if el = 11 then "A" else if el = 12 then "B"
    else if el = 13 then "C" else if el = 14 then "D" else if el = 15 then "E"
    else ((cues.lookup el).getD "")

/-- A response that echoes the `messageId` of the call made at time `now`. -/
def sampleAck (now : Nat) : Response := .value (some (toString now)) "ok"

/-- The environment while item `i` is handled: item 0 reveals the lines `Hi`, blank, `Bye`,
item 1 has no transcript button, item 2 reveals `Ok`, the others reveal nothing; the server
acknowledges every message after an unrelated response; the navigation succeeds. -/
def sampleItem (lectures : List Node) (i : Nat) : LectureEnv :=
  let cur : Option Node := some (i + 1)
  let btn : List Node := if i = 1 then [] else [50 + i]
  let cues : List (Node × String) :=
    if i = 0 then [(60, " Hi"), (61, "  "), (62, "Bye ")] else if i = 2 then [(63, "Ok")] else []
  let d := sampleDom lectures cur btn cues [70 + i]
  let dnext := sampleDom lectures (some (i + 2)) [] [] [71 + i]
  { dom := d
    buttons := { dom0 := d }
    texts := { dom0 := sampleDom lectures cur btn [] [70 + i], mutations := [d] }
    domTexts := d
    send := { socket := some { url := CONFIG.WS_URL, readyState := .OPEN }, now := 1000 + i,
              inbound := [sampleAck 7, sampleAck (1000 + i)] }
    confirm := { dom0 := d }
    domNav := d
    nav := { dom0 := d, mutations := [dnext] }
    domExpand := dnext
    expand := { dom0 := dnext } }

/-- A run on the section with items `lectures`, where `current` is marked current. -/
def sampleWorld (lectures : List Node) (current : Option Node) : World :=
  { dom0 := sampleDom lectures current [] [] []
    expand0 := { dom0 := sampleDom lectures current [] [] [] }
    dom1 := sampleDom lectures current [] [] []
    item := sampleItem lectures }

/-- The run of `sampleWorld [1, 2, 3] (some 1)`, except that after item 1 the document has no
next-item control. -/
def stuckWorld : World :=
  { sampleWorld [1, 2, 3] (some 1) with
    item := fun i =>
      if i = 1 then
        { sampleItem [1, 2, 3] 1 with domNav := sampleDom [1, 2, 3] (some 2) [] [] [] }
      else sampleItem [1, 2, 3] i }

def sampleClient : WebSocketClient := { url := CONFIG.WS_URL }

/-- A client whose socket is open. -/
def sampleOpenClient : WebSocketClient :=
  { url := CONFIG.WS_URL, socket := some { url := CONFIG.WS_URL, readyState := .OPEN } }

/-! # Theorems -/

/-! ## Strings -/

open TranscriptCollector

theorem jsTrim_trimmed (s : String) : Trimmed (jsTrim s) := by
  constructor
  · intro c hc
    have hpre : (s.data.dropWhile isJsWhiteSpace).rdropWhile isJsWhiteSpace <+:
        s.data.dropWhile isJsWhiteSpace := List.rdropWhile_prefix _ _
    obtain ⟨t, ht⟩ := hpre
    have h1 := List.head?_dropWhile_not isJsWhiteSpace s.data
    simp only [jsTrim] at hc
    rw [← ht] at h1
    cases hr : (s.data.dropWhile isJsWhiteSpace).rdropWhile isJsWhiteSpace with
    | nil => simp [hr] at hc
    | cons a l =>
      rw [hr] at hc h1
      simp at hc h1
      subst hc
      simpa using h1
  · intro c hc
    simp only [jsTrim] at hc
    rw [List.getLast?_eq_some_iff] at hc
    obtain ⟨ys, hys⟩ := hc
    have hne : (s.data.dropWhile isJsWhiteSpace).rdropWhile isJsWhiteSpace ≠ [] := by
      rw [hys]; simp
    have := List.rdropWhile_last_not isJsWhiteSpace (s.data.dropWhile isJsWhiteSpace) hne
    simp only [hys, List.getLast_append_singleton] at this
    simpa using this

/-! ## `DOMHelper.waitForElements` -/

namespace DOMHelper

/-- With a predicate that never throws, `checkElements` succeeds exactly where `satisfied`
holds. -/
theorem checkElements_total {D α : Type} (query : D → List α)
    (predicate : Option (D → List α → Bool)) (d : D) :
    checkElements query (predicate.map fun p d els => .ok (p d els)) d =
      if satisfied query predicate d = true then .ok (some (query d)) else .ok none := by
  unfold checkElements satisfied
  cases predicate with
  | none => by_cases h : (query d).length > 0 <;> simp [h]
  | some p =>
    by_cases h : (query d).length > 0
    · cases hp : p d (query d) <;> simp [h, hp]
    · simp [h]

theorem foldl_dispatch_idle {D α : Type} (query : D → List α) (selector : String)
    (opts : WaitOptions D α) (events : List (WaitEvent D)) (p : PromiseState (List α)) :
    events.foldl (dispatch query selector opts) { observer := false, timer := false, promise := p }
      = { observer := false, timer := false, promise := p } := by
  induction events with
  | nil => rfl
  | cons e es ih =>
    cases e <;> simpa [List.foldl, dispatch, onMutation, onTimeout] using ih

theorem checkElements_some {D α : Type} (query : D → List α)
    (condition : Option (D → List α → Except String Bool)) (d : D) (els : List α)
    (h : checkElements query condition d = .ok (some els)) : els = query d := by
  unfold checkElements at h
  by_cases hl : (query d).length > 0
  · cases condition with
    | none => simpa [hl] using h.symm
    | some c =>
      simp only [hl, if_true] at h
      split at h <;> simp at h
      exact h.symm
  · simp [hl] at h

/-- The observer callbacks up to the first successful check. -/
theorem foldl_mutations {D α : Type} (query : D → List α) (selector : String)
    (opts : WaitOptions D α) (mutations : List D) :
    (mutations.map WaitEvent.mutation).foldl (dispatch query selector opts)
        { observer := true, timer := true, promise := .pending } =
      match mutations.find? (found query opts.condition) with
      | some d => { observer := false, timer := false, promise := .fulfilled (query d) }
      | none => { observer := true, timer := true, promise := .pending } := by
  induction mutations with
  | nil => rfl
  | cons d ds ih =>
    simp only [List.map_cons, List.foldl_cons, List.find?_cons]
    cases hc : checkElements query opts.condition d with
    | error e =>
      have hf : found query opts.condition d = false := by simp [found, hc]
      simp only [hf]
      simpa [dispatch, onMutation, hc] using ih
    | ok r =>
      cases r with
      | none =>
        have hf : found query opts.condition d = false := by simp [found, hc]
        simp only [hf]
        simpa [dispatch, onMutation, hc] using ih
      | some els =>
        have hf : found query opts.condition d = true := by simp [found, hc]
        have he := checkElements_some query opts.condition d els hc
        subst he
        simp only [hf]
        have : dispatch query selector opts { observer := true, timer := true, promise := .pending }
            (WaitEvent.mutation d) =
            { observer := false, timer := false, promise := .fulfilled (query d) } := by
          simp [dispatch, onMutation, hc, cleanup, PromiseState.settle]
        rw [this]
        exact foldl_dispatch_idle query selector opts _ _

theorem found_total {D α : Type} (query : D → List α)
    (predicate : Option (D → List α → Bool)) :
    found query (predicate.map fun p d els => .ok (p d els)) = satisfied query predicate := by
  funext d
  unfold found
  rw [checkElements_total]
  cases satisfied query predicate d <;> simp

/-- The waiter with a predicate that never throws and no click that throws, on
`mutations` followed by arbitrary events. -/
theorem waitForElements_total {D α : Type} (query : D → List α) (selector : String)
    (timeout : Nat) (button : Option Node) (predicate : Option (D → List α → Bool))
    (clickError : Option String) (hclick : button = none ∨ clickError = none) (d0 : D)
    (mutations : List D) (events : List (WaitEvent D)) :
    waitForElements query selector (totalOptions button timeout predicate)
        { clickError := clickError, dom0 := d0,
          events := mutations.map WaitEvent.mutation ++ events } =
      match (d0 :: mutations).find? (satisfied query predicate) with
      | some d => { observer := false, timer := false, promise := .fulfilled (query d) }
      | none =>
        events.foldl (dispatch query selector (totalOptions button timeout predicate))
          { observer := true, timer := true, promise := .pending } := by
  have hcond : (totalOptions button timeout predicate).condition =
      predicate.map fun p d els => .ok (p d els) := rfl
  have hbutton : (totalOptions button timeout predicate).buttonElement = button := rfl
  generalize totalOptions button timeout predicate = opts at hcond hbutton ⊢
  cases h0 : satisfied query predicate d0 with
  | true =>
    have hobs : observe query opts d0 =
        .ok { observer := false, timer := false, promise := .fulfilled (query d0) } := by
      unfold observe
      rw [hcond, checkElements_total, h0]
      rfl
    simp only [List.find?_cons, h0]
    unfold waitForElements
    rw [hbutton]
    rcases hclick with hb | hc
    · subst hb
      simp only [hobs]
      exact foldl_dispatch_idle _ _ _ _ _
    · subst hc
      cases button <;> simp only [hobs] <;> exact foldl_dispatch_idle _ _ _ _ _
  | false =>
    have hobs : observe query opts d0 =
        .ok { observer := true, timer := true, promise := .pending } := by
      unfold observe
      rw [hcond, checkElements_total, h0]
      rfl
    have hfold : (mutations.map WaitEvent.mutation ++ events).foldl (dispatch query selector opts)
          { observer := true, timer := true, promise := .pending } =
        match mutations.find? (satisfied query predicate) with
        | some d => { observer := false, timer := false, promise := .fulfilled (query d) }
        | none =>
          events.foldl (dispatch query selector opts)
            { observer := true, timer := true, promise := .pending } := by
      rw [List.foldl_append, foldl_mutations, hcond, found_total]
      cases List.find? (satisfied query predicate) mutations with
      | none => rfl
      | some d => exact foldl_dispatch_idle _ _ _ _ _
    simp only [List.find?_cons, h0]
    unfold waitForElements
    rw [hbutton]
    rcases hclick with hb | hc
    · subst hb
      simp only [hobs]
      exact hfold
    · subst hc
      cases button <;> simp only [hobs] <;> exact hfold

end DOMHelper

/-! ## `WebSocketClient` -/

theorem decimalValue_digitChar (k : Nat) (hk : k < 10) (acc : Nat) (ds : List Char) :
    decimalValue acc (Nat.digitChar k :: ds) = decimalValue (10 * acc + k) ds := by
  have : (Nat.digitChar k).toNat - 48 = k := by
    interval_cases k <;> rfl
  simp [decimalValue, this]

theorem decimalValue_toDigitsCore (fuel : Nat) :
    ∀ (n : Nat) (ds : List Char), n < fuel →
      decimalValue 0 (Nat.toDigitsCore 10 fuel n ds) = decimalValue n ds := by
  induction fuel with
  | zero => intro n ds h; omega
  | succ fuel ih =>
    intro n ds h
    simp only [Nat.toDigitsCore]
    have hmod : n % 10 < 10 := Nat.mod_lt _ (by norm_num)
    split
    · rename_i h0
      rw [decimalValue_digitChar _ hmod]
      have : n = n % 10 := by omega
      rw [Nat.mul_zero, Nat.zero_add, ← this]
    · rename_i h0
      rw [ih (n / 10) _ (by omega), decimalValue_digitChar _ hmod]
      have : 10 * (n / 10) + n % 10 = n := Nat.div_add_mod n 10
      rw [this]

/-- The decimal numeral of a number determines the number. -/
theorem toString_nat_injective (a b : Nat) (h : toString a = toString b) : a = b := by
  have key : ∀ n : Nat, decimalValue 0 (toString n).data = n := by
    intro n
    show decimalValue 0 (Nat.toDigits 10 n) = n
    unfold Nat.toDigits
    rw [decimalValue_toDigitsCore _ _ _ (Nat.lt_succ_self n)]
    rfl
  rw [← key a, ← key b, h]

namespace WebSocketClient

theorem send_dispatch_idle {P : Type} (messageId : String) (events : List SocketEvent)
    (s : SendState P) (hl : s.listener = false) (ht : s.timer = false) :
    events.foldl (Send.dispatch messageId) s = s := by
  induction events with
  | nil => rfl
  | cons e es ih =>
    cases e <;> simpa [List.foldl, Send.dispatch, Send.handleMessage, Send.onTimeout, hl, ht]
      using ih

/-- The listener up to the first message that answers the call. -/
theorem send_foldl_messages {P : Type} (messageId : String) (t : Option (Outbound P))
    (messages : List Response) :
    (messages.map SocketEvent.message).foldl (Send.dispatch messageId)
        { listener := true, timer := true, cleanups := 0, transmitted := t, promise := .pending } =
      match messages.find? (Response.answers messageId) with
      | some r =>
        { listener := false, timer := false, cleanups := 1, transmitted := t,
          promise := .fulfilled r }
      | none =>
        { listener := true, timer := true, cleanups := 0, transmitted := t,
          promise := .pending } := by
  induction messages with
  | nil => rfl
  | cons r rs ih =>
    simp only [List.map_cons, List.foldl_cons, List.find?_cons]
    cases r with
    | null =>
      simpa [Response.answers, Send.dispatch, Send.handleMessage] using ih
    | value id body =>
      by_cases hid : id = some messageId
      · have ha : Response.answers messageId (.value id body) = true := by
          simp [Response.answers, hid]
        simp only [ha]
        have : Send.dispatch messageId
            ({ listener := true, timer := true, cleanups := 0, transmitted := t,
               promise := .pending } : SendState P) (.message (.value id body)) =
            { listener := false, timer := false, cleanups := 1, transmitted := t,
              promise := .fulfilled (.value id body) } := by
          simp [Send.dispatch, Send.handleMessage, hid, Send.cleanup, PromiseState.settle]
        rw [this]
        exact send_dispatch_idle _ _ _ rfl rfl
      · have ha : Response.answers messageId (.value id body) = false := by
          simp [Response.answers, hid]
        simp only [ha]
        simpa [Send.dispatch, Send.handleMessage, hid] using ih

/-- A healthy call, on `messages` followed by arbitrary events. -/
theorem sendWithResponse_messages {P : Type} (client : WebSocketClient)
    (h : client.isHealthy = true) (data : P) (now : Nat) (messages : List Response)
    (events : List SocketEvent) :
    sendWithResponse client data
        { now := now, events := messages.map SocketEvent.message ++ events } =
      match messages.find? (Response.answers (newMessageId now)) with
      | some r =>
        { listener := false, timer := false, cleanups := 1,
          transmitted := some { data := data, messageId := newMessageId now },
          promise := .fulfilled r }
      | none =>
        events.foldl (Send.dispatch (newMessageId now))
          { listener := true, timer := true, cleanups := 0,
            transmitted := some { data := data, messageId := newMessageId now },
            promise := .pending } := by
  unfold sendWithResponse
  simp only [h, Bool.not_true, Bool.false_eq_true, if_false, List.foldl_append]
  rw [send_foldl_messages]
  cases List.find? (Response.answers (newMessageId now)) messages with
  | none => rfl
  | some r => exact send_dispatch_idle _ _ _ rfl rfl

/-- Rejecting or resolving the last call of a chain of pending calls settles the promise that
`connect` returned. -/
theorem settle_chain (outcome : PromiseState Socket) (id : Nat) :
    ∀ (attempts : List Attempt) (fuel : Nat), id < fuel → id < attempts.length →
      (∀ j a, attempts[j]? = some a → j ≤ id →
        a.promise = .pending ∧ a.parent = if j = 0 then none else some (j - 1)) →
      ∃ a, (Connect.settle outcome fuel id attempts)[0]? = some a ∧ a.promise = outcome := by
  induction id with
  | zero =>
    intro attempts fuel hf hl hc
    obtain ⟨f, rfl⟩ : ∃ f, fuel = f + 1 := ⟨fuel - 1, by omega⟩
    obtain ⟨a, ha⟩ : ∃ a, attempts[0]? = some a :=
      ⟨attempts[0], List.getElem?_eq_getElem hl⟩
    obtain ⟨hp, hpar⟩ := hc 0 a ha (Nat.le_refl 0)
    simp only [if_true] at hpar
    refine ⟨{ a with promise := outcome }, ?_, rfl⟩
    simp only [Connect.settle, ha, hp, hpar]
    exact List.getElem?_set_self hl
  | succ id ih =>
    intro attempts fuel hf hl hc
    obtain ⟨f, rfl⟩ : ∃ f, fuel = f + 1 := ⟨fuel - 1, by omega⟩
    obtain ⟨a, ha⟩ : ∃ a, attempts[id + 1]? = some a :=
      ⟨attempts[id + 1], List.getElem?_eq_getElem hl⟩
    obtain ⟨hp, hpar⟩ := hc (id + 1) a ha (Nat.le_refl _)
    simp only [Nat.add_one_ne_zero, if_false, Nat.add_sub_cancel] at hpar
    simp only [Connect.settle, ha, hp, hpar]
    apply ih _ f (by omega) (by rw [List.length_set]; omega)
    intro j b hb hj
    rw [List.getElem?_set_ne (by omega)] at hb
    exact hc j b hb (by omega)

/-- One failed attempt followed by the expiry of the timer that `retry` set. -/
theorem erroring_step (client : WebSocketClient) (k : Nat) (s : ConnectState)
    (h : ErroringInvariant client.url k s) (hk : k < client.maxRetries) :
    ErroringInvariant client.url (k + 1)
      (Connect.dispatch client (Connect.dispatch client s (.socketError k)) (.retryTimer k)) := by
  obtain ⟨hr, hl, ht, htr, harmed, hc⟩ := h
  obtain ⟨a, ha⟩ : ∃ a, s.attempts[k]? = some a :=
    ⟨s.attempts[k], List.getElem?_eq_getElem (by omega)⟩
  have hlt : s.retries < client.maxRetries := by omega
  have h1 : Connect.dispatch client s (.socketError k) =
      { s with
        retries := k + 1
        attempts := s.attempts.set k { a with timer := false }
        timers := s.timers ++ [{ ms := 1000 * (k + 1), owner := k, armed := true }]
        trace := s.trace ++ [.delay (1000 * (k + 1))] } := by
    simp only [Connect.dispatch, Connect.onerror, ha, Connect.retry, Connect.disarm, hr]
    rw [if_pos hk]
  have htimer : (s.timers ++ [({ ms := 1000 * (k + 1), owner := k, armed := true } : RetryTimer)])[k]?
      = some { ms := 1000 * (k + 1), owner := k, armed := true } := by
    rw [← ht]
    exact List.getElem?_concat_length _ _
  rw [h1]
  simp only [Connect.dispatch, Connect.onRetryTimer, htimer, if_true, Connect.tryConnect]
  have hset : (s.timers ++ [({ ms := 1000 * (k + 1), owner := k, armed := true } : RetryTimer)]).set
      k { ms := 1000 * (k + 1), owner := k, armed := false } =
      s.timers ++ [{ ms := 1000 * (k + 1), owner := k, armed := false }] := by
    rw [← ht, List.set_append_right _ _ (Nat.le_refl _)]
    simp
  rw [hset]
  refine ⟨rfl, ?_, ?_, ?_, ?_, ?_⟩
  · simp [hl]
  · simp [ht]
  · simp only [htr, backoffTrace, List.append_assoc, List.singleton_append]
  · intro t hmem
    rcases List.mem_append.mp hmem with hmem | hmem
    · exact harmed t hmem
    · rw [List.mem_singleton.mp hmem]
  · intro j b hb
    by_cases hj : j < k + 1
    · rw [List.getElem?_append_left (by rw [List.length_set]; omega)] at hb
      by_cases hjk : j = k
      · subst hjk
        rw [List.getElem?_set_self (by omega)] at hb
        obtain rfl := Option.some.inj hb
        exact ⟨(hc j a ha).1, (hc j a ha).2.1, fun _ => rfl⟩
      · rw [List.getElem?_set_ne (fun h => hjk h.symm)] at hb
        exact ⟨(hc j b hb).1, (hc j b hb).2.1, fun _ => (hc j b hb).2.2 (by omega)⟩
    · have hjl : j = k + 1 ∨ k + 1 < j := by omega
      rcases hjl with rfl | hgt
      · rw [List.getElem?_append_right (by rw [List.length_set]; omega)] at hb
        simp only [List.length_set, hl, Nat.sub_self, List.getElem?_cons_zero] at hb
        obtain rfl := Option.some.inj hb
        exact ⟨rfl, by simp, fun h => absurd h (Nat.lt_irrefl _)⟩
      · rw [List.getElem?_eq_none (by simp [hl]; omega)] at hb
        exact Option.noConfusion hb

/-- After `k` failed attempts, `k` at most `maxRetries`. -/
theorem erroring_invariant (client : WebSocketClient) (k : Nat) (hk : k ≤ client.maxRetries) :
    ErroringInvariant client.url k (connect client (erroringAttempts k)) := by
  induction k with
  | zero =>
    refine ⟨rfl, rfl, rfl, rfl, ?_, ?_⟩
    · intro t ht
      simp [connect, erroringAttempts, Connect.tryConnect] at ht
    · intro j a ha
      cases j with
      | zero =>
        obtain rfl : ({ timer := true, parent := none, promise := .pending } : Attempt) = a := by
          simpa [connect, erroringAttempts, Connect.tryConnect] using ha
        exact ⟨rfl, rfl, fun h => absurd h (Nat.lt_irrefl _)⟩
      | succ j => simp [connect, erroringAttempts, Connect.tryConnect] at ha
  | succ k ih =>
    have := erroring_step client k _ (ih (by omega)) (by omega)
    unfold connect at this ⊢
    simpa only [erroringAttempts, List.foldl_append, List.foldl_cons, List.foldl_nil] using this

/-- Settling promises leaves the connect timers as they are. -/
theorem settle_timer (outcome : PromiseState Socket) (fuel : Nat) :
    ∀ (id : Nat) (attempts : List Attempt) (j : Nat),
      ((Connect.settle outcome fuel id attempts)[j]?).map (fun a => a.timer) =
        (attempts[j]?).map (fun a => a.timer) := by
  induction fuel with
  | zero => intro id attempts j; rfl
  | succ fuel ih =>
    intro id attempts j
    cases ha : attempts[id]? with
    | none => simp only [Connect.settle, ha]
    | some a =>
      have hid : id < attempts.length := by
        obtain ⟨h, _⟩ := List.getElem?_eq_some.mp ha
        exact h
      have hset : ((attempts.set id { a with promise := outcome })[j]?).map (fun a => a.timer) =
          (attempts[j]?).map (fun a => a.timer) := by
        by_cases hj : id = j
        · subst hj
          rw [List.getElem?_set_self hid, ha]
          rfl
        · rw [List.getElem?_set_ne hj]
      cases hp : a.promise with
      | pending =>
        cases hpar : a.parent with
        | none => rw [hpar] at hset; simp only [Connect.settle, ha, hp, hpar]; exact hset
        | some p => rw [hpar] at hset; simp only [Connect.settle, ha, hp, hpar, ih]; exact hset
      | fulfilled v => simp only [Connect.settle, ha, hp]
      | rejected e => simp only [Connect.settle, ha, hp]

/-- C3 (amended): when the socket of every attempt delivers its `error` event, `connect` on a
client with `maxRetries = n` creates `n + 1` sockets (the first attempt and `n` retries), with a
wait of `1000 * k` ms set between attempt `k` and attempt `k + 1`, in this order; the waits
`1000, 2000, ..., 1000 * n` are strictly increasing; the promise is pending as long as the
attempts go on and is rejected with `Failed to connect to WebSocket server` by the failure of
the last attempt, after which no timer is left armed. -/
theorem connect_every_attempt_errors (client : WebSocketClient) :
    (∀ k, k ≤ client.maxRetries →
      (connect client (erroringAttempts k)).trace = backoffTrace client.url k ∧
      (connect client (erroringAttempts k)).promise = .pending) ∧
    (connect client
        (erroringAttempts client.maxRetries ++ [.socketError client.maxRetries])).trace =
      backoffTrace client.url client.maxRetries ∧
    (connect client
        (erroringAttempts client.maxRetries ++ [.socketError client.maxRetries])).promise =
      .rejected "Failed to connect to WebSocket server" ∧
    connectionAttempts
        (connect client
          (erroringAttempts client.maxRetries ++ [.socketError client.maxRetries])).trace =
      client.maxRetries + 1 ∧
    retryDelays
        (connect client
          (erroringAttempts client.maxRetries ++ [.socketError client.maxRetries])).trace =
      (List.range' 1 client.maxRetries).map (fun k => 1000 * k) ∧
    (retryDelays
        (connect client
          (erroringAttempts client.maxRetries ++
            [.socketError client.maxRetries])).trace).Pairwise (fun a b => a < b) ∧
    (∀ a ∈ (connect client
        (erroringAttempts client.maxRetries ++ [.socketError client.maxRetries])).attempts,
      a.timer = false) ∧
    (∀ t ∈ (connect client
        (erroringAttempts client.maxRetries ++ [.socketError client.maxRetries])).timers,
      t.armed = false) := by
  have hattempts : ∀ k, connectionAttempts (backoffTrace client.url k) = k + 1 := by
    intro k
    induction k with
    | zero => rfl
    | succ k ih =>
      simp only [backoffTrace, connectionAttempts, List.countP_append] at ih ⊢
      rw [ih]
      rfl
  have hdelays : ∀ k, retryDelays (backoffTrace client.url k) =
      (List.range' 1 k).map (fun j => 1000 * j) := by
    intro k
    induction k with
    | zero => rfl
    | succ k ih =>
      simp only [backoffTrace, retryDelays, List.filterMap_append] at ih ⊢
      rw [ih, List.range'_1_concat, List.map_append]
      simp [Nat.add_comm]
  obtain ⟨hr, hl, ht, htr, harmed, hc⟩ :=
    erroring_invariant client client.maxRetries (Nat.le_refl _)
  obtain ⟨a, ha⟩ : ∃ a, (connect client (erroringAttempts client.maxRetries)).attempts[
      client.maxRetries]? = some a :=
    ⟨_, List.getElem?_eq_getElem (by omega)⟩
  have hfinal : connect client
      (erroringAttempts client.maxRetries ++ [.socketError client.maxRetries]) =
      { connect client (erroringAttempts client.maxRetries) with
        attempts :=
          Connect.settle (.rejected "Failed to connect to WebSocket server")
            (client.maxRetries + 1) client.maxRetries
            ((connect client (erroringAttempts client.maxRetries)).attempts.set
              client.maxRetries { a with timer := false }) } := by
    have hnot : ¬ (connect client (erroringAttempts client.maxRetries)).retries <
        client.maxRetries := by omega
    unfold connect at ha hnot hl ⊢
    rw [List.foldl_append]
    simp only [List.foldl_cons, List.foldl_nil, Connect.dispatch, Connect.onerror, ha,
      Connect.retry, Connect.disarm, hnot, if_false, List.length_set, hl]
  refine ⟨?_, ?_, ?_, ?_, ?_, ?_, ?_, ?_⟩
  · intro k hk
    obtain ⟨_, hlk, _, htrk, _, hck⟩ := erroring_invariant client k hk
    refine ⟨htrk, ?_⟩
    obtain ⟨b, hb⟩ : ∃ b, (connect client (erroringAttempts k)).attempts[0]? = some b :=
      ⟨_, List.getElem?_eq_getElem (by omega)⟩
    simp only [ConnectState.promise, hb]
    exact (hck 0 b hb).1
  · rw [hfinal]; exact htr
  · rw [hfinal]
    obtain ⟨b, hb, hbo⟩ := settle_chain (.rejected "Failed to connect to WebSocket server")
      client.maxRetries
      ((connect client (erroringAttempts client.maxRetries)).attempts.set client.maxRetries
        { a with timer := false })
      (client.maxRetries + 1) (by omega) (by rw [List.length_set]; omega)
      (by
        intro j b hb hj
        by_cases hjk : j = client.maxRetries
        · subst hjk
          rw [List.getElem?_set_self (by omega)] at hb
          obtain rfl := Option.some.inj hb
          exact ⟨(hc _ a ha).1, (hc _ a ha).2.1⟩
        · rw [List.getElem?_set_ne (fun h => hjk h.symm)] at hb
          exact ⟨(hc j b hb).1, (hc j b hb).2.1⟩)
    simp only [ConnectState.promise, hb, hbo]
  · rw [hfinal]; simp only [htr]; exact hattempts _
  · rw [hfinal]; simp only [htr]; exact hdelays _
  · rw [hfinal]
    simp only [htr, hdelays]
    refine List.Pairwise.map _ (fun a b hab => ?_) (List.pairwise_lt_range' 1 client.maxRetries)
    show 1000 * a < 1000 * b
    omega
  · rw [hfinal]
    intro b hb
    obtain ⟨j, hj⟩ := List.getElem?_of_mem hb
    have htimer := settle_timer (.rejected "Failed to connect to WebSocket server")
      (client.maxRetries + 1) client.maxRetries
      ((connect client (erroringAttempts client.maxRetries)).attempts.set client.maxRetries
        { a with timer := false }) j
    simp only at hj
    rw [hj] at htimer
    by_cases hjk : j = client.maxRetries
    · subst hjk
      rw [List.getElem?_set_self (by omega)] at htimer
      simpa using htimer
    · rw [List.getElem?_set_ne (fun h => hjk h.symm)] at htimer
      cases hold : (connect client (erroringAttempts client.maxRetries)).attempts[j]? with
      | none => rw [hold] at htimer; simp at htimer
      | some c =>
        rw [hold] at htimer
        have hjlt : j < client.maxRetries := by
          obtain ⟨h, _⟩ := List.getElem?_eq_some.mp hold
          omega
        have := (hc j c hold).2.2 hjlt
        simp only [Option.map_some', Option.some.injEq] at htimer
        rw [htimer, this]
  · rw [hfinal]; exact harmed

theorem connect_every_attempt_errors_witness :
    (connect { url := CONFIG.WS_URL, maxRetries := 3 }
        [.socketError 0, .retryTimer 0, .socketError 1, .retryTimer 1, .socketError 2,
          .retryTimer 2]).promise = .pending ∧
    (connect { url := CONFIG.WS_URL, maxRetries := 3 }
        [.socketError 0, .retryTimer 0, .socketError 1, .retryTimer 1, .socketError 2,
          .retryTimer 2, .socketError 3]).trace =
      [.newWebSocket CONFIG.WS_URL, .delay 1000, .newWebSocket CONFIG.WS_URL, .delay 2000,
        .newWebSocket CONFIG.WS_URL, .delay 3000, .newWebSocket CONFIG.WS_URL] ∧
    (connect { url := CONFIG.WS_URL, maxRetries := 3 }
        [.socketError 0, .retryTimer 0, .socketError 1, .retryTimer 1, .socketError 2,
          .retryTimer 2, .socketError 3]).promise =
      .rejected "Failed to connect to WebSocket server" :=
  ⟨((connect_every_attempt_errors { url := CONFIG.WS_URL, maxRetries := 3 }).1 3
      (Nat.le_refl 3)).2,
    (connect_every_attempt_errors { url := CONFIG.WS_URL, maxRetries := 3 }).2.1,
    (connect_every_attempt_errors { url := CONFIG.WS_URL, maxRetries := 3 }).2.2.1⟩

/-- C3 as stated fails: with `maxRetries = 3` and sockets that all deliver `error`, `connect`
creates four sockets, not three, before it rejects; after three attempts have failed the
promise is still pending and a timer of `retry` is armed. -/
theorem connect_three_retries_counterexample :
    connectionAttempts
        (connect { url := CONFIG.WS_URL, maxRetries := 3 }
          [.socketError 0, .retryTimer 0, .socketError 1, .retryTimer 1, .socketError 2,
            .retryTimer 2, .socketError 3]).trace = 4 ∧
    (connect { url := CONFIG.WS_URL, maxRetries := 3 }
        [.socketError 0, .retryTimer 0, .socketError 1, .retryTimer 1, .socketError 2,
          .retryTimer 2, .socketError 3]).promise =
      .rejected "Failed to connect to WebSocket server" ∧
    connectionAttempts
        (connect { url := CONFIG.WS_URL, maxRetries := 3 }
          [.socketError 0, .retryTimer 0, .socketError 1, .retryTimer 1,
            .socketError 2]).trace = 3 ∧
    (connect { url := CONFIG.WS_URL, maxRetries := 3 }
        [.socketError 0, .retryTimer 0, .socketError 1, .retryTimer 1,
          .socketError 2]).promise = .pending ∧
    (connect { url := CONFIG.WS_URL, maxRetries := 3 }
        [.socketError 0, .retryTimer 0, .socketError 1, .retryTimer 1,
          .socketError 2]).timers =
      [{ ms := 1000, owner := 0, armed := false }, { ms := 2000, owner := 1, armed := false },
        { ms := 3000, owner := 2, armed := true }] := by
  decide

/-- The connect timer: when a socket stays silent, the callback of its timer closes it and calls
`retry`, and the `error` event that the closed socket delivers calls `retry` again.  With
`maxRetries = 3` and silent sockets two retries are used up by the first socket, the second and
the third socket are created one after the other, the promise is rejected when the second
socket has timed out, and the fourth socket is created after that. -/
theorem connect_silent_sockets :
    (connect { url := CONFIG.WS_URL, maxRetries := 3 }
        [.connectTimer 0, .socketError 0, .retryTimer 0, .retryTimer 1, .connectTimer 1,
          .socketError 1]).trace =
      [.newWebSocket CONFIG.WS_URL, .close 0, .delay 1000, .delay 2000,
        .newWebSocket CONFIG.WS_URL, .newWebSocket CONFIG.WS_URL, .close 1, .delay 3000] ∧
    (connect { url := CONFIG.WS_URL, maxRetries := 3 }
        [.connectTimer 0, .socketError 0, .retryTimer 0, .retryTimer 1, .connectTimer 1,
          .socketError 1]).promise = .rejected "Failed to connect to WebSocket server" ∧
    connectionAttempts
        (connect { url := CONFIG.WS_URL, maxRetries := 3 }
          [.connectTimer 0, .socketError 0, .retryTimer 0, .retryTimer 1, .connectTimer 1,
            .socketError 1, .connectTimer 2, .socketError 2, .retryTimer 2, .connectTimer 3,
            .socketError 3]).trace = 4 := by
  decide

end WebSocketClient

/-! ## Promises of the awaited calls -/

namespace DOMHelper

/-- When the timer fires after the notifications, the promise of `waitForElements` is settled,
whatever the condition does. -/
theorem waitForElements_settles {D α : Type} (query : D → List α) (selector : String)
    (opts : WaitOptions D α) (clickError : Option String) (d0 : D) (mutations : List D) :
    (waitForElements query selector opts
      { clickError := clickError, dom0 := d0,
        events := mutations.map WaitEvent.mutation ++ [WaitEvent.timeout] }).promise ≠
      .pending := by
  have hfold : ∀ s : WaitState α,
      observe query opts d0 = .ok s →
      ((mutations.map WaitEvent.mutation ++ [WaitEvent.timeout]).foldl
        (dispatch query selector opts) s).promise ≠ .pending := by
    intro s hs
    unfold observe at hs
    split at hs
    · simp at hs
    · simp only [Except.ok.injEq] at hs
      subst hs
      rw [foldl_dispatch_idle]
      simp
    · simp only [Except.ok.injEq] at hs
      subst hs
      rw [List.foldl_append, foldl_mutations]
      cases List.find? (found query opts.condition) mutations with
      | none => simp [dispatch, onTimeout, cleanup, PromiseState.settle]
      | some d => simp [dispatch, onTimeout]
  unfold waitForElements
  cases opts.buttonElement with
  | none =>
    simp only
    cases ho : observe query opts d0 with
    | error e => simp
    | ok s => exact hfold s ho
  | some b =>
    cases clickError with
    | some m => simp
    | none =>
      simp only
      cases ho : observe query opts d0 with
      | error e => simp
      | ok s => exact hfold s ho

end DOMHelper

theorem awaitElements_settles (selector : String) (opts : WaitOptions Dom Node)
    (w : WaitScript) : (awaitElements selector opts w).promise ≠ .pending :=
  DOMHelper.waitForElements_settles _ _ _ _ _ _

theorem awaitResponse_settles (wsClient : WebSocketClient) (data : SaveTranscript)
    (w : SendScript) : (awaitResponse wsClient data w).promise ≠ .pending := by
  unfold awaitResponse
  simp only
  by_cases h : WebSocketClient.isHealthy { wsClient with socket := w.socket } = true
  · unfold SendScript.toEnv
    rw [WebSocketClient.sendWithResponse_messages _ h]
    cases List.find? (Response.answers (WebSocketClient.newMessageId w.now)) w.inbound with
    | none =>
      simp [WebSocketClient.Send.dispatch, WebSocketClient.Send.onTimeout,
        WebSocketClient.Send.cleanup, PromiseState.settle]
    | some r => simp
  · simp [WebSocketClient.sendWithResponse, h]

namespace Run

theorem await_trace {α β : Type} (r : Run α) (k : α → Run β) :
    (await r k).trace = r.trace ++
      match r.promise with
      | .fulfilled a => (k a).trace
      | _ => [] := by
  unfold await
  cases r.promise <;> simp

theorem await_fulfilled {α β : Type} (r : Run α) (k : α → Run β) (a : α)
    (h : r.promise = .fulfilled a) :
    await r k = { trace := r.trace ++ (k a).trace, promise := (k a).promise } := by
  unfold await
  rw [h]

theorem await_rejected {α β : Type} (r : Run α) (k : α → Run β) (e : String)
    (h : r.promise = .rejected e) :
    await r k = { trace := r.trace, promise := .rejected e } := by
  unfold await
  rw [h]

theorem await_settles {α β : Type} (r : Run α) (k : α → Run β) (hr : r.promise ≠ .pending)
    (hk : ∀ a, (k a).promise ≠ .pending) : (await r k).promise ≠ .pending := by
  unfold await
  cases h : r.promise with
  | pending => exact absurd h hr
  | fulfilled a => exact hk a
  | rejected e => simp

theorem tryCatch_fulfilled (r : Run Unit) (handler : String → Run Unit)
    (hr : r.promise ≠ .pending) (hh : ∀ e, (handler e).promise = .fulfilled ()) :
    (tryCatch r handler).promise = .fulfilled () := by
  unfold tryCatch
  cases h : r.promise with
  | pending => exact absurd h hr
  | fulfilled a => simp [h]
  | rejected e => exact hh e

end Run

namespace TranscriptCollector

theorem processLectureBody_settles (env : LectureEnv) (wsClient : WebSocketClient)
    (title sectionTitle : String) (index : Nat) :
    (processLectureBody env wsClient title sectionTitle index).promise ≠ .pending := by
  unfold processLectureBody
  apply Run.await_settles _ _ (awaitElements_settles _ _ _)
  intro buttons
  cases buttons with
  | nil => simp [Run.emit]
  | cons button rest =>
    simp only
    apply Run.await_settles _ _ (by simp [Run.emit])
    intro _
    apply Run.await_settles _ _ (awaitElements_settles _ _ _)
    intro _
    apply Run.await_settles _ _ (by simp [Run.emit])
    intro _
    split
    · simp [Run.emit]
    · apply Run.await_settles _ _ (awaitResponse_settles _ _ _)
      intro _
      apply Run.await_settles _ _ (by simp [Run.emit])
      intro _
      apply Run.await_settles _ _ (awaitElements_settles _ _ _)
      intro _
      simp [Run.ret]

/-- The promise of `processLecture` is always fulfilled. -/
theorem processLecture_fulfilled (env : LectureEnv) (wsClient : WebSocketClient)
    (lecture sectionEl : Node) (sectionTitle : String) (offset index : Nat) :
    (processLecture env wsClient lecture sectionEl sectionTitle offset index).promise =
      .fulfilled () := by
  unfold processLecture
  rw [Run.await_fulfilled _ _ () rfl]
  exact Run.tryCatch_fulfilled _ _ (processLectureBody_settles _ _ _ _ _) (fun _ => rfl)

end TranscriptCollector

/-! ## Which events a run holds -/

namespace Run

theorem only_ret {α : Type} (p : Ev → Prop) (a : α) : Only p (ret a) := by
  intro e he; simp [ret] at he

theorem only_throw {α : Type} (p : Ev → Prop) (m : String) : Only p (throw m : Run α) := by
  intro e he; simp [throw] at he

theorem only_emit (p : Ev → Prop) (e : Ev) (h : p e) : Only p (emit e) := by
  intro e' he; simp [emit] at he; subst he; exact h

theorem only_await {α β : Type} (p : Ev → Prop) (r : Run α) (k : α → Run β) (hr : Only p r)
    (hk : ∀ a, Only p (k a)) : Only p (await r k) := by
  intro e he
  rw [await_trace, List.mem_append] at he
  rcases he with he | he
  · exact hr e he
  · cases hp : r.promise with
    | fulfilled a => rw [hp] at he; exact hk a e he
    | pending => rw [hp] at he; simp at he
    | rejected m => rw [hp] at he; simp at he

theorem only_tryCatch {α : Type} (p : Ev → Prop) (r : Run α) (handler : String → Run α)
    (hr : Only p r) (hh : ∀ m, Only p (handler m)) : Only p (tryCatch r handler) := by
  intro e he
  unfold tryCatch at he
  cases hp : r.promise with
  | fulfilled a => rw [hp] at he; exact hr e he
  | pending => rw [hp] at he; exact hr e he
  | rejected m =>
    rw [hp] at he
    simp only [List.mem_append] at he
    rcases he with he | he
    · exact hr e he
    · exact hh m e he

theorem only_no_processed {α : Type} (r : Run α)
    (h : Only (fun e => ∀ i l, e ≠ Ev.processLecture i l) r) :
    UdemyCrawling.processedLectures r.trace = [] := by
  unfold UdemyCrawling.processedLectures
  rw [List.filterMap_eq_nil_iff]
  intro e he
  have := h e he
  cases e <;> simp_all

theorem only_no_communications {α : Type} (r : Run α)
    (h : Only (fun e => e.isCommunication = false) r) :
    UdemyCrawling.communications r.trace = [] := by
  unfold UdemyCrawling.communications
  rw [List.filter_eq_nil_iff]
  intro e he
  simpa using h e he

end Run

theorem only_awaitElements (p : Ev → Prop) (selector : String) (opts : WaitOptions Dom Node)
    (w : WaitScript) (h : ∀ b, p (.click b)) : Run.Only p (awaitElements selector opts w) := by
  intro e he
  unfold awaitElements at he
  cases hb : opts.buttonElement with
  | none => simp [hb] at he
  | some b => simp [hb] at he; subst he; exact h b

theorem only_awaitResponse (p : Ev → Prop) (wsClient : WebSocketClient) (data : SaveTranscript)
    (w : SendScript) (hs : ∀ m, p (.send m)) (hr : ∀ r, p (.response r)) :
    Run.Only p (awaitResponse wsClient data w) := by
  intro e he
  unfold awaitResponse at he
  simp only [List.mem_append] at he
  rcases he with he | he
  · split at he
    · simp at he; subst he; exact hs _
    · simp at he
  · split at he
    · simp at he; subst he; exact hr _
    · simp at he

namespace TranscriptCollector

theorem only_expandSection (p : Ev → Prop) (h : ∀ b, p (.click b)) (dom : Dom)
    (w : WaitScript) (sectionEl : Node) : Run.Only p (expandSection dom w sectionEl) := by
  unfold expandSection
  split
  · split
    · exact Run.only_await _ _ _ (only_awaitElements _ _ _ _ h) (fun _ => Run.only_ret _ _)
    · exact Run.only_ret _ _
  · exact Run.only_ret _ _

theorem only_navigateToNextLecture (p : Ev → Prop) (h : ∀ b, p (.click b))
    (hl : ∀ t, p (.log t)) (hn : p .navigateToNextLecture) (dom : Dom) (w : WaitScript) :
    Run.Only p (navigateToNextLecture dom w) := by
  unfold navigateToNextLecture
  apply Run.only_await _ _ _ (Run.only_emit _ _ hn)
  intro _
  split
  · exact Run.only_throw _ _
  · apply Run.only_tryCatch
    · exact Run.only_await _ _ _ (only_awaitElements _ _ _ _ h) (fun _ => Run.only_ret _ _)
    · intro m
      exact Run.only_await _ _ _ (Run.only_emit _ _ (hl _)) (fun _ => Run.only_throw _ _)

theorem only_processLectureBody (p : Ev → Prop) (h : ∀ b, p (.click b))
    (hl : ∀ t, p (.log t)) (hs : ∀ m, p (.send m)) (hr : ∀ r, p (.response r))
    (env : LectureEnv) (wsClient : WebSocketClient) (title sectionTitle : String) (index : Nat) :
    Run.Only p (processLectureBody env wsClient title sectionTitle index) := by
  unfold processLectureBody
  apply Run.only_await _ _ _ (only_awaitElements _ _ _ _ h)
  intro buttons
  cases buttons with
  | nil => exact Run.only_emit _ _ (hl _)
  | cons button rest =>
    simp only
    apply Run.only_await _ _ _ (Run.only_emit _ _ (hl _))
    intro _
    apply Run.only_await _ _ _ (only_awaitElements _ _ _ _ h)
    intro _
    apply Run.only_await _ _ _ (Run.only_emit _ _ (hl _))
    intro _
    split
    · exact Run.only_emit _ _ (hl _)
    · apply Run.only_await _ _ _ (only_awaitResponse _ _ _ _ hs hr)
      intro _
      apply Run.only_await _ _ _ (Run.only_emit _ _ (hl _))
      intro _
      exact Run.only_await _ _ _ (only_awaitElements _ _ _ _ h) (fun _ => Run.only_ret _ _)

end TranscriptCollector

/-! ## The waits of `processLecture` -/

theorem communications_append (a b : List Ev) :
    communications (a ++ b) = communications a ++ communications b := by
  simp [communications]

theorem processedLectures_append (a b : List Ev) :
    processedLectures (a ++ b) = processedLectures a ++ processedLectures b := by
  simp [processedLectures]

theorem quiet_not_communication {α : Type} (r : Run α) (h : Run.Only (fun e => e.isQuiet = true) r) :
    communications r.trace = [] := by
  apply Run.only_no_communications
  intro e he
  have := h e he
  cases e <;> simp_all [Ev.isQuiet, Ev.isCommunication]

theorem quiet_not_processed {α : Type} (r : Run α) (h : Run.Only (fun e => e.isQuiet = true) r) :
    processedLectures r.trace = [] := by
  apply Run.only_no_processed
  intro e he i l hil
  have := h e he
  subst hil
  simp [Ev.isQuiet] at this

theorem communications_awaitResponse (wsClient : WebSocketClient) (data : SaveTranscript)
    (w : SendScript) :
    communications (awaitResponse wsClient data w).trace = (awaitResponse wsClient data w).trace := by
  unfold communications
  rw [List.filter_eq_self]
  exact only_awaitResponse (fun e => e.isCommunication = true) wsClient data w
    (fun _ => rfl) (fun _ => rfl)

/-- The wait for the transcript buttons settles with the buttons of the first observation that
shows one. -/
theorem buttons_promise (w : WaitScript) (timeout : Nat) (selector : String) :
    (awaitElements selector { timeout := timeout } w).promise =
      match w.observations.find? fun d => (d.querySelectorAll selector).length > 0 with
      | some d => .fulfilled (d.querySelectorAll selector)
      | none => .rejected (DOMHelper.timeoutMessage timeout selector) := by
  unfold awaitElements WaitScript.toEnv WaitScript.observations
  have h := DOMHelper.waitForElements_total (fun d : Dom => d.querySelectorAll selector) selector
    timeout none none w.clickError (Or.inl rfl) w.dom0 w.mutations [WaitEvent.timeout]
  have hopts : ({ timeout := timeout } : WaitOptions Dom Node) =
      DOMHelper.totalOptions none timeout none := rfl
  have hsat : DOMHelper.satisfied (fun d : Dom => d.querySelectorAll selector) none =
      fun d => decide ((d.querySelectorAll selector).length > 0) := by
    funext d
    simp [DOMHelper.satisfied]
  simp only [hopts]
  rw [h, hsat]
  split <;> rename_i hf <;> rw [hf]
  simp [DOMHelper.dispatch, DOMHelper.onTimeout, DOMHelper.cleanup, PromiseState.settle,
    DOMHelper.totalOptions]

/-- The wait after a click that does not throw. -/
theorem click_promise (w : WaitScript) (hc : w.clickError = none) (button : Node) (timeout : Nat)
    (selector : String) :
    (awaitElements selector { buttonElement := some button, timeout := timeout } w).promise =
      match w.observations.find? fun d => (d.querySelectorAll selector).length > 0 with
      | some d => .fulfilled (d.querySelectorAll selector)
      | none => .rejected (DOMHelper.timeoutMessage timeout selector) := by
  unfold awaitElements WaitScript.toEnv WaitScript.observations
  have h := DOMHelper.waitForElements_total (fun d : Dom => d.querySelectorAll selector) selector
    timeout (some button) none w.clickError (Or.inr hc) w.dom0 w.mutations [WaitEvent.timeout]
  have hopts : ({ buttonElement := some button, timeout := timeout } : WaitOptions Dom Node) =
      DOMHelper.totalOptions (some button) timeout none := rfl
  have hsat : DOMHelper.satisfied (fun d : Dom => d.querySelectorAll selector) none =
      fun d => decide ((d.querySelectorAll selector).length > 0) := by
    funext d
    simp [DOMHelper.satisfied]
  simp only [hopts]
  rw [h, hsat]
  split <;> rename_i hf <;> rw [hf]
  simp [DOMHelper.dispatch, DOMHelper.onTimeout, DOMHelper.cleanup, PromiseState.settle,
    DOMHelper.totalOptions]

/-- The wait after a click that throws. -/
theorem click_throws_promise (w : WaitScript) (m : String) (hc : w.clickError = some m)
    (opts : WaitOptions Dom Node) (button : Node) (hb : opts.buttonElement = some button)
    (selector : String) :
    (awaitElements selector opts w).promise = .rejected ("Failed to click button: " ++ m) := by
  unfold awaitElements WaitScript.toEnv DOMHelper.waitForElements
  simp [hb, hc]

namespace TranscriptCollector

theorem emit_promise (e : Ev) : (Run.emit e).promise = .fulfilled () := rfl

theorem communications_emit_log (t : String) : communications (Run.emit (.log t)).trace = [] := rfl

theorem communications_awaitElements (selector : String) (opts : WaitOptions Dom Node)
    (w : WaitScript) : communications (awaitElements selector opts w).trace = [] :=
  quiet_not_communication _ (only_awaitElements _ _ _ _ (fun _ => rfl))

theorem communications_await {α β : Type} (r : Run α) (k : α → Run β) :
    communications (Run.await r k).trace = communications r.trace ++
      match r.promise with
      | .fulfilled a => communications (k a).trace
      | _ => [] := by
  rw [Run.await_trace, communications_append]
  cases r.promise <;> rfl

/-- The events of the connection during the `try` block of `processLecture` are those of the
one `sendWithResponse` call, made when the revealed transcript has a line. -/
theorem communications_processLectureBody (env : LectureEnv) (wsClient : WebSocketClient)
    (title sectionTitle : String) (index : Nat) :
    communications (processLectureBody env wsClient title sectionTitle index).trace =
      match env.revealedTranscript with
      | some (line :: lines) =>
        (awaitResponse wsClient
          { action := "save_transcript", sectionTitle := sectionTitle, title := title,
            transcripts := line :: lines } env.send).trace
      | _ => [] := by
  unfold processLectureBody
  rw [communications_await, communications_awaitElements, List.nil_append, buttons_promise]
  cases hfind : env.buttons.observations.find? fun d =>
      (d.querySelectorAll CONFIG.SELECTORS.transcript).length > 0 with
  | none =>
    have : env.revealedTranscript = none := by
      simp [LectureEnv.revealedTranscript, LectureEnv.transcriptControl, hfind]
    simp [this]
  | some d =>
    have hd := List.find?_some hfind
    cases hq : d.querySelectorAll CONFIG.SELECTORS.transcript with
    | nil => simp [hq] at hd
    | cons button rest =>
      have hcontrol : env.transcriptControl = some button := by
        simp [LectureEnv.transcriptControl, hfind, hq]
      simp only [hq]
      rw [communications_await, communications_emit_log, List.nil_append]
      simp only [emit_promise]
      rw [communications_await, communications_awaitElements, List.nil_append]
      cases hce : env.texts.clickError with
      | some m =>
        rw [click_throws_promise env.texts m hce _ button rfl]
        have : env.revealedTranscript = none := by
          simp [LectureEnv.revealedTranscript, LectureEnv.revealsText, hce]
        simp [this]
      | none =>
        rw [click_promise env.texts hce]
        cases hfind2 : env.texts.observations.find? fun d =>
            (d.querySelectorAll CONFIG.SELECTORS.transcriptText).length > 0 with
        | none =>
          have : env.revealedTranscript = none := by
            have hany : (env.texts.observations.any fun d =>
                decide ((d.querySelectorAll CONFIG.SELECTORS.transcriptText).length > 0)) = false := by
              rw [List.find?_eq_none] at hfind2
              rw [List.any_eq_false]
              intro x hx
              simpa using hfind2 x hx
            simp [LectureEnv.revealedTranscript, LectureEnv.revealsText, hany]
          simp [this]
        | some d2 =>
          have hreveal : env.revealedTranscript = some (transcriptTexts env.domTexts) := by
            have hany : (env.texts.observations.any fun d =>
                decide ((d.querySelectorAll CONFIG.SELECTORS.transcriptText).length > 0)) = true := by
              rw [List.any_eq_true]
              have hd2 := List.find?_some hfind2
              exact ⟨d2, List.mem_of_find?_eq_some hfind2, hd2⟩
            simp [LectureEnv.revealedTranscript, LectureEnv.revealsText, hany, hce, hcontrol]
          simp only [hreveal]
          rw [communications_await, communications_emit_log, List.nil_append]
          simp only [emit_promise]
          cases htexts : transcriptTexts env.domTexts with
          | nil => simp [communications_emit_log]
          | cons line lines =>
            simp only [List.length_cons, Nat.add_one_ne_zero, if_false]
            rw [communications_await, communications_awaitResponse]
            have htail : ∀ r : Response, communications
                (Run.await (Run.emit (.log ("📤 Sent data for: " ++ title))) fun _ =>
                  Run.await
                    (awaitElements CONFIG.SELECTORS.lectures
                      { buttonElement := some button, condition := some (isCurrent index) }
                      env.confirm)
                    fun _ => Run.ret ()).trace = [] := by
              intro _
              apply quiet_not_communication
              apply Run.only_await (fun e => e.isQuiet = true) _ _
                (Run.only_emit _ (.log ("📤 Sent data for: " ++ title)) rfl)
              intro _
              exact Run.only_await (fun e => e.isQuiet = true) _ _
                (only_awaitElements _ _ _ _ (fun _ => rfl)) (fun _ => Run.only_ret _ _)
            cases (awaitResponse wsClient
              { action := "save_transcript", sectionTitle := sectionTitle, title := title,
                transcripts := line :: lines } env.send).promise with
            | pending => simp
            | rejected e => simp
            | fulfilled r => simp [htail r]

end TranscriptCollector

/-! ## `processLecture` -/

namespace TranscriptCollector

theorem processLecture_trace (env : LectureEnv) (wsClient : WebSocketClient)
    (lecture sectionEl : Node) (sectionTitle : String) (offset index : Nat) :
    (processLecture env wsClient lecture sectionEl sectionTitle offset index).trace =
      Ev.processLecture index lecture ::
        (Run.tryCatch
          (processLectureBody env wsClient (lectureTitle env.dom lecture) sectionTitle index)
          fun message =>
            Run.emit (.log ("⚠️ Error processing lecture " ++ lectureTitle env.dom lecture ++
              ": " ++ message))).trace := by
  unfold processLecture
  rw [Run.await_fulfilled _ _ () rfl]
  rfl

theorem tryCatch_trace {α : Type} (r : Run α) (handler : String → Run α) :
    (Run.tryCatch r handler).trace = r.trace ++
      match r.promise with
      | .rejected e => (handler e).trace
      | _ => [] := by
  unfold Run.tryCatch
  cases r.promise <;> simp

/-- The events of the connection during `processLecture`. -/
theorem communications_processLecture (env : LectureEnv) (wsClient : WebSocketClient)
    (lecture sectionEl : Node) (sectionTitle : String) (offset index : Nat) :
    communications
        (processLecture env wsClient lecture sectionEl sectionTitle offset index).trace =
      match env.unit sectionTitle lecture with
      | some data => (awaitResponse wsClient data env.send).trace
      | none => [] := by
  rw [processLecture_trace, tryCatch_trace]
  have hhead : ∀ t : List Ev, communications (Ev.processLecture index lecture :: t) =
      communications t := fun _ => rfl
  rw [hhead, communications_append, communications_processLectureBody]
  have hnil : communications [] = [] := rfl
  unfold LectureEnv.unit
  generalize (processLectureBody env wsClient (lectureTitle env.dom lecture) sectionTitle
    index).promise = p
  cases p <;> simp only [communications_emit_log, hnil, List.append_nil] <;>
    cases env.revealedTranscript with
    | none => rfl
    | some lines => cases lines <;> rfl

theorem processedLectures_processLecture (env : LectureEnv) (wsClient : WebSocketClient)
    (lecture sectionEl : Node) (sectionTitle : String) (offset index : Nat) :
    processedLectures
        (processLecture env wsClient lecture sectionEl sectionTitle offset index).trace =
      [(index, lecture)] := by
  rw [processLecture_trace]
  have hhead : ∀ t : List Ev, processedLectures (Ev.processLecture index lecture :: t) =
      (index, lecture) :: processedLectures t := fun _ => rfl
  rw [hhead]
  have : processedLectures (Run.tryCatch
      (processLectureBody env wsClient (lectureTitle env.dom lecture) sectionTitle index)
      fun message =>
        Run.emit (.log ("⚠️ Error processing lecture " ++ lectureTitle env.dom lecture ++
          ": " ++ message))).trace = [] := by
    apply Run.only_no_processed
    apply Run.only_tryCatch
    · exact only_processLectureBody _ (fun _ _ _ h => nomatch h) (fun _ _ _ h => nomatch h)
        (fun _ _ _ h => nomatch h) (fun _ _ _ h => nomatch h) _ _ _ _ _
    · intro m
      exact Run.only_emit _ _ (fun _ _ h => nomatch h)
  rw [this]

/-- A functioning connection transmits the unit and resolves with its acknowledgement. -/
theorem awaitResponse_functioning (wsClient : WebSocketClient) (data : SaveTranscript)
    (s : SendScript) (h : s.Functioning) :
    ∃ r, s.acknowledgement = some r ∧
      r.answers (WebSocketClient.newMessageId s.now) = true ∧
      (awaitResponse wsClient data s).trace =
        [Ev.send { data := data, messageId := WebSocketClient.newMessageId s.now },
         Ev.response r] := by
  obtain ⟨⟨url, hsock⟩, hack⟩ := h
  obtain ⟨r, hr⟩ := Option.isSome_iff_exists.mp hack
  refine ⟨r, hr, ?_, ?_⟩
  · unfold SendScript.acknowledgement at hr
    exact List.find?_some hr
  · have hhealthy : WebSocketClient.isHealthy { wsClient with socket := s.socket } = true := by
      simp [WebSocketClient.isHealthy, hsock]
    unfold awaitResponse SendScript.toEnv
    rw [WebSocketClient.sendWithResponse_messages _ hhealthy]
    unfold SendScript.acknowledgement at hr
    rw [hr]
    rfl

end TranscriptCollector

/-! ## The loop of `collectTranscriptsForSection` -/

namespace TranscriptCollector

theorem quiet_navigateToNextLecture (dom : Dom) (w : WaitScript) :
    Run.Only (fun e => e.isQuiet = true) (navigateToNextLecture dom w) :=
  only_navigateToNextLecture (fun e => e.isQuiet = true) (fun _ => rfl) (fun _ => rfl) rfl dom w

theorem quiet_expandSection (dom : Dom) (w : WaitScript) (sectionEl : Node) :
    Run.Only (fun e => e.isQuiet = true) (expandSection dom w sectionEl) :=
  only_expandSection (fun e => e.isQuiet = true) (fun _ => rfl) dom w sectionEl

theorem collectLoop_skip (w : World) (wsClient : WebSocketClient) (sectionEl : Node)
    (sectionTitle : String) (lectureArray : List Node) (currentLecture : Option Node) (i : Nat)
    (lecture : Node) (rest : List (Nat × Node)) (start : Bool)
    (h : (!start && some lecture != currentLecture) = true) :
    collectLoop w wsClient sectionEl sectionTitle lectureArray currentLecture
        ((i, lecture) :: rest) start =
      collectLoop w wsClient sectionEl sectionTitle lectureArray currentLecture rest start := by
  rw [collectLoop]
  simp only [h, if_true]

/-- One processed item of the loop: `processLecture` returns, then the rest of the body runs. -/
theorem collectLoop_process (w : World) (wsClient : WebSocketClient) (sectionEl : Node)
    (sectionTitle : String) (lectureArray : List Node) (currentLecture : Option Node) (i : Nat)
    (lecture : Node) (rest : List (Nat × Node)) (start : Bool)
    (h : (!start && some lecture != currentLecture) = false) :
    collectLoop w wsClient sectionEl sectionTitle lectureArray currentLecture
        ((i, lecture) :: rest) start =
      { trace := (processLecture (w.item i) wsClient lecture sectionEl sectionTitle 0 i).trace ++
          (match lectureArray[i + 1]? with
            | none => Run.emit (.log ("✅ Section " ++ sectionTitle ++ " completed"))
            | some _ =>
              Run.await (navigateToNextLecture (w.item i).domNav (w.item i).nav) fun _ =>
              Run.await (expandSection (w.item i).domExpand (w.item i).expand sectionEl) fun _ =>
              collectLoop w wsClient sectionEl sectionTitle lectureArray currentLecture rest
                true).trace
        promise :=
          (match lectureArray[i + 1]? with
            | none => Run.emit (.log ("✅ Section " ++ sectionTitle ++ " completed"))
            | some _ =>
              Run.await (navigateToNextLecture (w.item i).domNav (w.item i).nav) fun _ =>
              Run.await (expandSection (w.item i).domExpand (w.item i).expand sectionEl) fun _ =>
              collectLoop w wsClient sectionEl sectionTitle lectureArray currentLecture rest
                true).promise } := by
  rw [collectLoop]
  simp only [h, Bool.false_eq_true, if_false]
  rw [Run.await_fulfilled _ _ () (processLecture_fulfilled _ _ _ _ _ _ _)]

/-- What follows a quiet step contributes the events of the connection and the processed
items. -/
theorem after_quiet {α : Type} (r : Run α) (k : α → Run Unit)
    (h : Run.Only (fun e => e.isQuiet = true) r) :
    (communications (Run.await r k).trace = [] ∧ processedLectures (Run.await r k).trace = []) ∨
    ∃ a, r.promise = .fulfilled a ∧ communications (Run.await r k).trace =
        communications (k a).trace ∧
      processedLectures (Run.await r k).trace = processedLectures (k a).trace := by
  rw [Run.await_trace, communications_append, processedLectures_append,
    quiet_not_communication r h, quiet_not_processed r h]
  cases hp : r.promise with
  | pending => left; exact ⟨rfl, rfl⟩
  | rejected e => left; exact ⟨rfl, rfl⟩
  | fulfilled a => right; exact ⟨a, rfl, rfl, rfl⟩

/-- After `processLecture`, the body of the loop either stops without touching the connection or
a further item, or reaches the next iteration. -/
theorem continuation_cases (w : World) (wsClient : WebSocketClient) (sectionEl : Node)
    (sectionTitle : String) (lectureArray : List Node) (currentLecture : Option Node) (i : Nat)
    (rest : List (Nat × Node)) (next : Option Node) :
    let cont : Run Unit :=
      match next with
      | none => Run.emit (.log ("✅ Section " ++ sectionTitle ++ " completed"))
      | some _ =>
        Run.await (navigateToNextLecture (w.item i).domNav (w.item i).nav) fun _ =>
        Run.await (expandSection (w.item i).domExpand (w.item i).expand sectionEl) fun _ =>
        collectLoop w wsClient sectionEl sectionTitle lectureArray currentLecture rest true
    (communications cont.trace = [] ∧ processedLectures cont.trace = []) ∨
    (communications cont.trace =
        communications (collectLoop w wsClient sectionEl sectionTitle lectureArray
          currentLecture rest true).trace ∧
      processedLectures cont.trace =
        processedLectures (collectLoop w wsClient sectionEl sectionTitle lectureArray
          currentLecture rest true).trace) := by
  intro cont
  cases next with
  | none => left; exact ⟨rfl, rfl⟩
  | some n =>
    simp only [cont]
    rcases after_quiet (navigateToNextLecture (w.item i).domNav (w.item i).nav)
      (fun _ =>
        Run.await (expandSection (w.item i).domExpand (w.item i).expand sectionEl) fun _ =>
        collectLoop w wsClient sectionEl sectionTitle lectureArray currentLecture rest true)
      (quiet_navigateToNextLecture _ _) with h | ⟨_, _, h1, h2⟩
    · left; exact h
    · rw [h1, h2]
      rcases after_quiet (expandSection (w.item i).domExpand (w.item i).expand sectionEl)
        (fun _ =>
          collectLoop w wsClient sectionEl sectionTitle lectureArray currentLecture rest true)
        (quiet_expandSection _ _ _) with h | ⟨_, _, h3, h4⟩
      · left; exact h
      · right; exact ⟨h3, h4⟩

/-- The events of the connection during the loop are the exchanges of the processed items, in
the order in which they are processed. -/
theorem communications_collectLoop (w : World) (wsClient : WebSocketClient) (sectionEl : Node)
    (sectionTitle : String) (lectureArray : List Node) (currentLecture : Option Node)
    (es : List (Nat × Node)) :
    ∀ start,
      communications
          (collectLoop w wsClient sectionEl sectionTitle lectureArray currentLecture es
            start).trace =
        (processedLectures
          (collectLoop w wsClient sectionEl sectionTitle lectureArray currentLecture es
            start).trace).flatMap (w.exchange wsClient sectionTitle) := by
  induction es with
  | nil => intro start; rfl
  | cons entry rest ih =>
    intro start
    obtain ⟨i, lecture⟩ := entry
    cases h : (!start && some lecture != currentLecture) with
    | true => rw [collectLoop_skip _ _ _ _ _ _ _ _ _ _ h]; exact ih start
    | false =>
      rw [collectLoop_process _ _ _ _ _ _ _ _ _ _ h]
      simp only [communications_append, processedLectures_append, List.flatMap_append,
        communications_processLecture, processedLectures_processLecture]
      have hx : [(i, lecture)].flatMap (w.exchange wsClient sectionTitle) =
          match (w.item i).unit sectionTitle lecture with
          | some data => (awaitResponse wsClient data (w.item i).send).trace
          | none => [] := by
        simp [World.exchange]
      rw [hx]
      congr 1
      rcases continuation_cases w wsClient sectionEl sectionTitle lectureArray currentLecture i
        rest lectureArray[i + 1]? with ⟨h1, h2⟩ | ⟨h1, h2⟩
      · rw [h1, h2]; rfl
      · rw [h1, h2]; exact ih true

/-- The loop processes entries of its list, in the order of the list. -/
theorem processedLectures_collectLoop_sublist (w : World) (wsClient : WebSocketClient)
    (sectionEl : Node) (sectionTitle : String) (lectureArray : List Node)
    (currentLecture : Option Node) (es : List (Nat × Node)) :
    ∀ start,
      (processedLectures
        (collectLoop w wsClient sectionEl sectionTitle lectureArray currentLecture es
          start).trace).Sublist es := by
  induction es with
  | nil => intro start; exact List.Sublist.slnil
  | cons entry rest ih =>
    intro start
    obtain ⟨i, lecture⟩ := entry
    cases h : (!start && some lecture != currentLecture) with
    | true =>
      rw [collectLoop_skip _ _ _ _ _ _ _ _ _ _ h]
      exact List.Sublist.cons _ (ih start)
    | false =>
      rw [collectLoop_process _ _ _ _ _ _ _ _ _ _ h]
      simp only [processedLectures_append, processedLectures_processLecture]
      apply List.Sublist.cons₂
      rcases continuation_cases w wsClient sectionEl sectionTitle lectureArray currentLecture i
        rest lectureArray[i + 1]? with ⟨_, h2⟩ | ⟨_, h2⟩
      · rw [h2]; exact List.nil_sublist _
      · rw [h2]; exact ih true

end TranscriptCollector

/-! ## `collectTranscriptsForSection` -/

namespace TranscriptCollector

theorem collect_invalid (w : World) (wsClient : WebSocketClient) (sectionIndex : Nat)
    (h : w.sectionElement sectionIndex = none) :
    collectTranscriptsForSection w wsClient sectionIndex = Run.throw "Invalid section index" := by
  unfold World.sectionElement at h
  rw [List.getElem?_eq_none_iff] at h
  unfold collectTranscriptsForSection
  simp only [ge_iff_le, h, dite_true]

theorem collect_valid (w : World) (wsClient : WebSocketClient) (sectionIndex : Nat)
    (sectionEl : Node) (h : w.sectionElement sectionIndex = some sectionEl) :
    collectTranscriptsForSection w wsClient sectionIndex =
      Run.await (expandSection w.dom0 w.expand0 sectionEl) fun _ =>
      Run.await (Run.emit (.log ("📂 Processing section: " ++ w.sectionTitle sectionIndex)))
        fun _ =>
      collectLoop w wsClient sectionEl (w.sectionTitle sectionIndex) (w.lectures sectionIndex)
        w.currentLecture (w.lectures sectionIndex).enum
        (includesCurrent (w.lectures sectionIndex) w.currentLecture) := by
  have hs := h
  unfold World.sectionElement at h
  obtain ⟨hlt, hget⟩ := List.getElem?_eq_some_iff.mp h
  unfold collectTranscriptsForSection
  have hnot : ¬ sectionIndex ≥ (w.dom0.querySelectorAll CONFIG.SELECTORS.sections).length := by
    omega
  simp only [hnot, dite_false, hget, World.sectionTitle, World.lectures, hs, Option.some_bind,
    World.currentLecture]

/-- The loop is reached, or the call ends before any item or transmission. -/
theorem collect_cases (w : World) (wsClient : WebSocketClient) (sectionIndex : Nat) :
    (communications (collectTranscriptsForSection w wsClient sectionIndex).trace = [] ∧
      processedLectures (collectTranscriptsForSection w wsClient sectionIndex).trace = []) ∨
    ∃ sectionEl pre, w.sectionElement sectionIndex = some sectionEl ∧
      communications pre = [] ∧ processedLectures pre = [] ∧
      collectTranscriptsForSection w wsClient sectionIndex =
        { trace := pre ++
            (collectLoop w wsClient sectionEl (w.sectionTitle sectionIndex)
              (w.lectures sectionIndex) w.currentLecture (w.lectures sectionIndex).enum
              (includesCurrent (w.lectures sectionIndex) w.currentLecture)).trace
          promise :=
            (collectLoop w wsClient sectionEl (w.sectionTitle sectionIndex)
              (w.lectures sectionIndex) w.currentLecture (w.lectures sectionIndex).enum
              (includesCurrent (w.lectures sectionIndex) w.currentLecture)).promise } := by
  cases hs : w.sectionElement sectionIndex with
  | none => left; rw [collect_invalid w wsClient sectionIndex hs]; exact ⟨rfl, rfl⟩
  | some sectionEl =>
    rw [collect_valid w wsClient sectionIndex sectionEl hs]
    have hq := quiet_expandSection w.dom0 w.expand0 sectionEl
    cases he : (expandSection w.dom0 w.expand0 sectionEl).promise with
    | pending =>
      left
      rw [Run.await_trace, he, List.append_nil]
      exact ⟨quiet_not_communication _ hq, quiet_not_processed _ hq⟩
    | rejected e =>
      left
      rw [Run.await_trace, he, List.append_nil]
      exact ⟨quiet_not_communication _ hq, quiet_not_processed _ hq⟩
    | fulfilled u =>
      right
      refine ⟨sectionEl, (expandSection w.dom0 w.expand0 sectionEl).trace ++
        [Ev.log ("📂 Processing section: " ++ w.sectionTitle sectionIndex)], rfl, ?_, ?_, ?_⟩
      · rw [communications_append, quiet_not_communication _ hq]; rfl
      · rw [processedLectures_append, quiet_not_processed _ hq]; rfl
      · rw [Run.await_fulfilled _ _ u he, Run.await_fulfilled _ _ () rfl]
        simp only [Run.emit, List.append_assoc]

theorem sentMessages_communications (trace : List Ev) :
    sentMessages (communications trace) = sentMessages trace := by
  unfold sentMessages communications
  induction trace with
  | nil => rfl
  | cons e t ih =>
    cases e <;> simp [List.filter_cons, Ev.isCommunication, ih]

/-- On a functioning connection the exchanges of a list of items are one acknowledged message per
unit. -/
theorem exchanges_functioning (w : World) (wsClient : WebSocketClient) (sectionTitle : String)
    (hconn : ∀ i, (w.item i).send.Functioning) (entries : List (Nat × Node)) :
    sentMessages (entries.flatMap (w.exchange wsClient sectionTitle)) =
      entries.filterMap (fun entry =>
        ((w.item entry.1).unit sectionTitle entry.2).map fun data =>
          { data := data,
            messageId := WebSocketClient.newMessageId (w.item entry.1).send.now }) ∧
    acknowledgedInTurn (entries.flatMap (w.exchange wsClient sectionTitle)) = true := by
  induction entries with
  | nil => exact ⟨rfl, rfl⟩
  | cons entry rest ih =>
    obtain ⟨ih1, ih2⟩ := ih
    simp only [List.flatMap_cons, List.filterMap_cons]
    cases hu : (w.item entry.1).unit sectionTitle entry.2 with
    | none =>
      have hx : w.exchange wsClient sectionTitle entry = [] := by
        simp [World.exchange, hu]
      rw [hx]
      simpa using ⟨ih1, ih2⟩
    | some data =>
      obtain ⟨r, _, hans, htrace⟩ := awaitResponse_functioning wsClient data _ (hconn entry.1)
      have hx : w.exchange wsClient sectionTitle entry =
          [Ev.send { data := data,
                     messageId := WebSocketClient.newMessageId (w.item entry.1).send.now },
           Ev.response r] := by
        simp [World.exchange, hu, htrace]
      rw [hx]
      simp only [Option.map_some']
      constructor
      · simpa [sentMessages] using ih1
      · simp [acknowledgedInTurn, hans, ih2]

theorem collectLoop_process_after (w : World) (wsClient : WebSocketClient) (sectionEl : Node)
    (sectionTitle : String) (lectureArray : List Node) (currentLecture : Option Node) (i : Nat)
    (lecture : Node) (rest : List (Nat × Node)) (start : Bool)
    (h : (!start && some lecture != currentLecture) = false) :
    collectLoop w wsClient sectionEl sectionTitle lectureArray currentLecture
        ((i, lecture) :: rest) start =
      { trace := (processLecture (w.item i) wsClient lecture sectionEl sectionTitle 0 i).trace ++
          (afterLecture w wsClient sectionEl sectionTitle lectureArray currentLecture i
            rest).trace
        promise :=
          (afterLecture w wsClient sectionEl sectionTitle lectureArray currentLecture i
            rest).promise } :=
  collectLoop_process w wsClient sectionEl sectionTitle lectureArray currentLecture i lecture
    rest start h

/-- When the part after `processLecture` processes a further item, the navigation and the
expansion succeeded and the loop went on. -/
theorem afterLecture_reaches (w : World) (wsClient : WebSocketClient) (sectionEl : Node)
    (sectionTitle : String) (lectureArray : List Node) (currentLecture : Option Node) (i : Nat)
    (rest : List (Nat × Node))
    (h : processedLectures
      (afterLecture w wsClient sectionEl sectionTitle lectureArray currentLecture i rest).trace
        ≠ []) :
    ∃ pre, processedLectures pre = [] ∧
      afterLecture w wsClient sectionEl sectionTitle lectureArray currentLecture i rest =
        { trace := pre ++
            (collectLoop w wsClient sectionEl sectionTitle lectureArray currentLecture rest
              true).trace
          promise :=
            (collectLoop w wsClient sectionEl sectionTitle lectureArray currentLecture rest
              true).promise } := by
  unfold afterLecture at h ⊢
  generalize lectureArray[i + 1]? = next at h ⊢
  cases next with
  | none => exact absurd rfl h
  | some n =>
    simp only at h ⊢
    have hqn := quiet_not_processed _ (quiet_navigateToNextLecture (w.item i).domNav (w.item i).nav)
    have hqe := quiet_not_processed _
      (quiet_expandSection (w.item i).domExpand (w.item i).expand sectionEl)
    cases hn : (navigateToNextLecture (w.item i).domNav (w.item i).nav).promise with
    | pending =>
      rw [Run.await_trace, hn, processedLectures_append, hqn] at h
      exact absurd rfl h
    | rejected e =>
      rw [Run.await_trace, hn, processedLectures_append, hqn] at h
      exact absurd rfl h
    | fulfilled u =>
      rw [Run.await_fulfilled _ _ u hn] at h ⊢
      simp only at h ⊢
      cases he : (expandSection (w.item i).domExpand (w.item i).expand sectionEl).promise with
      | pending =>
        rw [Run.await_trace, he, processedLectures_append, processedLectures_append, hqn, hqe] at h
        exact absurd rfl h
      | rejected e =>
        rw [Run.await_trace, he, processedLectures_append, processedLectures_append, hqn, hqe] at h
        exact absurd rfl h
      | fulfilled u2 =>
        rw [Run.await_fulfilled _ _ u2 he]
        refine ⟨(navigateToNextLecture (w.item i).domNav (w.item i).nav).trace ++
          (expandSection (w.item i).domExpand (w.item i).expand sectionEl).trace, ?_, ?_⟩
        · rw [processedLectures_append, hqn, hqe]; rfl
        · simp only [List.append_assoc]

/-- An item that the loop processes is reached: before its `processLecture` only items of
smaller index are processed, and from there the run is the loop body for that item. -/
theorem collectLoop_reaches (w : World) (wsClient : WebSocketClient) (sectionEl : Node)
    (sectionTitle : String) (lectureArray : List Node) (currentLecture : Option Node) (i : Nat)
    (lecture : Node) (l : List Node) :
    ∀ (j : Nat) (start : Bool),
      (i, lecture) ∈ processedLectures
        (collectLoop w wsClient sectionEl sectionTitle lectureArray currentLecture
          (l.enumFrom j) start).trace →
      ∃ pre rest, (∀ p ∈ processedLectures pre, p.1 < i) ∧
        collectLoop w wsClient sectionEl sectionTitle lectureArray currentLecture
            (l.enumFrom j) start =
          { trace := pre ++
              ((processLecture (w.item i) wsClient lecture sectionEl sectionTitle 0 i).trace ++
                (afterLecture w wsClient sectionEl sectionTitle lectureArray currentLecture i
                  rest).trace)
            promise :=
              (afterLecture w wsClient sectionEl sectionTitle lectureArray currentLecture i
                rest).promise } := by
  induction l with
  | nil =>
    intro j start h
    simp [collectLoop, Run.ret, processedLectures] at h
  | cons x l ih =>
    intro j start h
    rw [List.enumFrom_cons] at h ⊢
    cases hskip : (!start && some x != currentLecture) with
    | true =>
      rw [collectLoop_skip _ _ _ _ _ _ _ _ _ _ hskip] at h ⊢
      exact ih (j + 1) start h
    | false =>
      rw [collectLoop_process_after _ _ _ _ _ _ _ _ _ _ hskip] at h ⊢
      simp only [processedLectures_append, processedLectures_processLecture, List.singleton_append,
        List.mem_cons] at h
      rcases h with h | h
      · obtain ⟨hi, hl⟩ := Prod.mk.inj h
        subst hi; subst hl
        exact ⟨[], l.enumFrom (i + 1), by simp [processedLectures], by simp⟩
      · have hne : processedLectures
            (afterLecture w wsClient sectionEl sectionTitle lectureArray currentLecture j
              (l.enumFrom (j + 1))).trace ≠ [] := List.ne_nil_of_mem h
        obtain ⟨mid, hmid, hafter⟩ := afterLecture_reaches _ _ _ _ _ _ _ _ hne
        rw [hafter] at h ⊢
        simp only [processedLectures_append, hmid, List.nil_append] at h
        have hji : j + 1 ≤ i :=
          List.le_fst_of_mem_enumFrom
            ((processedLectures_collectLoop_sublist w wsClient sectionEl sectionTitle lectureArray
              currentLecture (l.enumFrom (j + 1)) true).subset h)
        obtain ⟨pre, rest, hpre, hloop⟩ := ih (j + 1) true h
        refine ⟨(processLecture (w.item j) wsClient x sectionEl sectionTitle 0 j).trace ++ mid ++
          pre, rest, ?_, ?_⟩
        · intro p hp
          simp only [processedLectures_append, processedLectures_processLecture, hmid,
            List.append_nil, List.singleton_append, List.mem_cons] at hp
          rcases hp with hp | hp
          · subst hp; exact hji
          · exact hpre p hp
        · rw [hloop]
          simp only [List.append_assoc]

/-- An item that `collectTranscriptsForSection` processes is reached. -/
theorem collect_reaches (w : World) (wsClient : WebSocketClient) (sectionIndex : Nat)
    (sectionEl : Node) (i : Nat) (lecture : Node)
    (hs : w.sectionElement sectionIndex = some sectionEl)
    (hproc : (i, lecture) ∈
      processedLectures (collectTranscriptsForSection w wsClient sectionIndex).trace) :
    ∃ pre rest, (∀ p ∈ processedLectures pre, p.1 < i) ∧
      collectTranscriptsForSection w wsClient sectionIndex =
        { trace := pre ++
            ((processLecture (w.item i) wsClient lecture sectionEl
                (w.sectionTitle sectionIndex) 0 i).trace ++
              (afterLecture w wsClient sectionEl (w.sectionTitle sectionIndex)
                (w.lectures sectionIndex) w.currentLecture i rest).trace)
          promise :=
            (afterLecture w wsClient sectionEl (w.sectionTitle sectionIndex)
              (w.lectures sectionIndex) w.currentLecture i rest).promise } := by
  rcases collect_cases w wsClient sectionIndex with ⟨_, h⟩ | ⟨sec, pre0, hsec, _, hpre0, hrun⟩
  · rw [h] at hproc
    simp at hproc
  · rw [hs] at hsec
    obtain rfl := Option.some.inj hsec
    rw [hrun] at hproc ⊢
    simp only [processedLectures_append, hpre0, List.nil_append] at hproc
    obtain ⟨pre, rest, hpre, hloop⟩ :=
      collectLoop_reaches w wsClient sectionEl (w.sectionTitle sectionIndex)
        (w.lectures sectionIndex) w.currentLecture i lecture (w.lectures sectionIndex) 0 _ hproc
    refine ⟨pre0 ++ pre, rest, ?_, ?_⟩
    · intro p hp
      rw [processedLectures_append, hpre0, List.nil_append] at hp
      exact hpre p hp
    · have henum : (w.lectures sectionIndex).enum = (w.lectures sectionIndex).enumFrom 0 := rfl
      rw [henum, hloop]
      simp only [List.append_assoc]

/-- C10: when item `i` has been processed, a next item exists and `navigateToNextLecture` rejects
with `e`, `collectTranscriptsForSection` rejects with `e`, no item of index above `i` is
processed, and the trace ends with the navigation attempt, which touches the connection not at
all; when instead item `i` is the last of the section, the call is fulfilled and the trace ends
with `processLecture` for it, which holds no navigation, and the completion log. -/
theorem navigation_failure_stops_section (w : World) (wsClient : WebSocketClient)
    (sectionIndex : Nat) (sectionEl : Node) (i : Nat) (lecture : Node)
    (hs : w.sectionElement sectionIndex = some sectionEl)
    (hproc : (i, lecture) ∈
      processedLectures (collectTranscriptsForSection w wsClient sectionIndex).trace) :
    (∀ e, (w.lectures sectionIndex)[i + 1]? ≠ none →
      (navigateToNextLecture (w.item i).domNav (w.item i).nav).promise = .rejected e →
      (collectTranscriptsForSection w wsClient sectionIndex).promise = .rejected e ∧
      (∀ p ∈ processedLectures (collectTranscriptsForSection w wsClient sectionIndex).trace,
        p.1 ≤ i) ∧
      communications (navigateToNextLecture (w.item i).domNav (w.item i).nav).trace = [] ∧
      ∃ pre, (collectTranscriptsForSection w wsClient sectionIndex).trace =
        pre ++
          (processLecture (w.item i) wsClient lecture sectionEl (w.sectionTitle sectionIndex) 0
            i).trace ++
          (navigateToNextLecture (w.item i).domNav (w.item i).nav).trace) ∧
    ((w.lectures sectionIndex)[i + 1]? = none →
      (collectTranscriptsForSection w wsClient sectionIndex).promise = .fulfilled () ∧
      Ev.navigateToNextLecture ∉
        (processLecture (w.item i) wsClient lecture sectionEl (w.sectionTitle sectionIndex) 0
          i).trace ∧
      ∃ pre, (collectTranscriptsForSection w wsClient sectionIndex).trace =
        pre ++
          (processLecture (w.item i) wsClient lecture sectionEl (w.sectionTitle sectionIndex) 0
            i).trace ++
          [Ev.log ("✅ Section " ++ w.sectionTitle sectionIndex ++ " completed")]) := by
  obtain ⟨pre, rest, hlt, hrun⟩ :=
    collect_reaches w wsClient sectionIndex sectionEl i lecture hs hproc
  constructor
  · intro e hnext hnav
    have hafter : afterLecture w wsClient sectionEl (w.sectionTitle sectionIndex)
        (w.lectures sectionIndex) w.currentLecture i rest =
        { trace := (navigateToNextLecture (w.item i).domNav (w.item i).nav).trace,
          promise := .rejected e } := by
      unfold afterLecture
      cases hn : (w.lectures sectionIndex)[i + 1]? with
      | none => exact absurd hn hnext
      | some n => exact Run.await_rejected _ _ e hnav
    have hq := quiet_navigateToNextLecture (w.item i).domNav (w.item i).nav
    refine ⟨?_, ?_, quiet_not_communication _ hq, pre, ?_⟩
    · rw [hrun, hafter]
    · rw [hrun, hafter]
      intro p hp
      simp only [processedLectures_append, processedLectures_processLecture,
        quiet_not_processed _ hq, List.append_nil, List.mem_append, List.mem_singleton] at hp
      rcases hp with hp | hp
      · exact Nat.le_of_lt (hlt p hp)
      · subst hp; exact Nat.le_refl _
    · rw [hrun, hafter]
      simp only [List.append_assoc]
  · intro hlast
    have hafter : afterLecture w wsClient sectionEl (w.sectionTitle sectionIndex)
        (w.lectures sectionIndex) w.currentLecture i rest =
        Run.emit (.log ("✅ Section " ++ w.sectionTitle sectionIndex ++ " completed")) := by
      unfold afterLecture
      rw [hlast]
    refine ⟨?_, ?_, pre, ?_⟩
    · rw [hrun, hafter]; rfl
    · rw [processLecture_trace]
      intro hmem
      rcases List.mem_cons.mp hmem with h | h
      · exact Ev.noConfusion h
      · have honly : Run.Only (fun e => e ≠ Ev.navigateToNextLecture)
            (Run.tryCatch
              (processLectureBody (w.item i) wsClient (lectureTitle (w.item i).dom lecture)
                (w.sectionTitle sectionIndex) i)
              fun message =>
                Run.emit (.log ("⚠️ Error processing lecture " ++
                  lectureTitle (w.item i).dom lecture ++ ": " ++ message))) := by
          apply Run.only_tryCatch
          · exact only_processLectureBody _ (fun _ h => nomatch h) (fun _ h => nomatch h)
              (fun _ h => nomatch h) (fun _ h => nomatch h) _ _ _ _ _
          · intro m
            exact Run.only_emit _ _ (fun h => nomatch h)
        exact honly _ h rfl
    · rw [hrun, hafter]
      simp only [Run.emit, List.append_assoc]

end TranscriptCollector

/-! ## The claims on the traversal -/

namespace TranscriptCollector

theorem navigation_failure_stops_section_witness :
    ((1, 2) ∈ processedLectures (collectTranscriptsForSection stuckWorld sampleClient 0).trace ∧
      (stuckWorld.lectures 0)[1 + 1]? ≠ none ∧
      (collectTranscriptsForSection stuckWorld sampleClient 0).promise =
        .rejected "Next lecture button not found" ∧
      ∀ p ∈ processedLectures (collectTranscriptsForSection stuckWorld sampleClient 0).trace,
        p.1 ≤ 1) ∧
    ((2, 3) ∈ processedLectures
        (collectTranscriptsForSection (sampleWorld [1, 2, 3] (some 1)) sampleClient 0).trace ∧
      ((sampleWorld [1, 2, 3] (some 1)).lectures 0)[2 + 1]? = none ∧
      (collectTranscriptsForSection (sampleWorld [1, 2, 3] (some 1)) sampleClient 0).promise =
        .fulfilled ()) :=
  have h1 := (navigation_failure_stops_section stuckWorld sampleClient 0 100 1 2 (by decide)
    (by decide)).1 "Next lecture button not found" (by decide) (by decide)
  have h2 := (navigation_failure_stops_section (sampleWorld [1, 2, 3] (some 1)) sampleClient 0
    100 2 3 (by decide) (by decide)).2 (by decide)
  ⟨⟨by decide, by decide, h1.1, h1.2.1⟩, by decide, by decide, h2.1⟩

/-- C9: the promise of `processLecture` is fulfilled whatever the environment does during the
waits, the click and the `sendWithResponse` call; and when a processed item has a successor in
the section, `collectTranscriptsForSection` goes on with `navigateToNextLecture` right after the
`processLecture` of that item. -/
theorem processLecture_never_propagates :
    (∀ (env : LectureEnv) (wsClient : WebSocketClient) (lecture sectionEl : Node)
        (sectionTitle : String) (offset index : Nat),
      (processLecture env wsClient lecture sectionEl sectionTitle offset index).promise =
        .fulfilled ()) ∧
    (∀ (w : World) (wsClient : WebSocketClient) (sectionIndex : Nat) (sectionEl : Node) (i : Nat)
        (lecture : Node),
      w.sectionElement sectionIndex = some sectionEl →
      (i, lecture) ∈
        processedLectures (collectTranscriptsForSection w wsClient sectionIndex).trace →
      (w.lectures sectionIndex)[i + 1]? ≠ none →
      ∃ pre more, (collectTranscriptsForSection w wsClient sectionIndex).trace =
        pre ++
          (processLecture (w.item i) wsClient lecture sectionEl (w.sectionTitle sectionIndex) 0
            i).trace ++
          Ev.navigateToNextLecture :: more) := by
  refine ⟨processLecture_fulfilled, ?_⟩
  intro w wsClient sectionIndex sectionEl i lecture hs hproc hnext
  obtain ⟨pre, rest, _, hrun⟩ := collect_reaches w wsClient sectionIndex sectionEl i lecture hs hproc
  have hafter : ∃ more, (afterLecture w wsClient sectionEl (w.sectionTitle sectionIndex)
      (w.lectures sectionIndex) w.currentLecture i rest).trace =
      Ev.navigateToNextLecture :: more := by
    unfold afterLecture
    cases hn : (w.lectures sectionIndex)[i + 1]? with
    | none => exact absurd hn hnext
    | some n =>
      simp only
      rw [Run.await_trace]
      unfold navigateToNextLecture
      rw [Run.await_fulfilled _ _ () rfl]
      exact ⟨_, rfl⟩
  obtain ⟨more, hmore⟩ := hafter
  exact ⟨pre, more, by rw [hrun, hmore]; simp only [List.append_assoc]⟩

theorem processLecture_never_propagates_witness :
    (processLecture (sampleItem [1, 2, 3] 1) sampleClient 2 100 "Intro" 0 1).promise =
      .fulfilled () ∧
    (1, 2) ∈ processedLectures
      (collectTranscriptsForSection (sampleWorld [1, 2, 3] (some 1)) sampleClient 0).trace ∧
    ∃ pre more,
      (collectTranscriptsForSection (sampleWorld [1, 2, 3] (some 1)) sampleClient 0).trace =
        pre ++
          (processLecture ((sampleWorld [1, 2, 3] (some 1)).item 1) sampleClient 2 100
            ((sampleWorld [1, 2, 3] (some 1)).sectionTitle 0) 0 1).trace ++
          Ev.navigateToNextLecture :: more :=
  ⟨processLecture_never_propagates.1 _ _ _ _ _ _ _, by decide,
    processLecture_never_propagates.2 (sampleWorld [1, 2, 3] (some 1)) sampleClient 0 100 1 2
      (by decide) (by decide) (by decide)⟩

theorem unit_none_of_no_transcript (env : LectureEnv) (sectionTitle : String) (lecture : Node)
    (h : env.transcriptControl = none ∨ transcriptTexts env.domTexts = []) :
    env.unit sectionTitle lecture = none := by
  unfold LectureEnv.unit LectureEnv.revealedTranscript
  rcases h with h | h
  · simp [h]
  · rw [h]
    split <;> simp_all

/-- C7: on a functioning connection, the items that `collectTranscriptsForSection` processes are
items of the section in document order; the messages it transmits are, in that order, one
`save_transcript` message per processed item whose revealed transcript has a line, with the
section title, the title of the item and its lines; every transmission is answered by its
acknowledgement before the next one; an item without transcript control or without a
non-empty line yields no unit, and its `processLecture` is fulfilled all the same. -/
theorem collectTranscriptsForSection_units (w : World) (wsClient : WebSocketClient)
    (sectionIndex : Nat) (hconn : ∀ i, (w.item i).send.Functioning) :
    (processedLectures (collectTranscriptsForSection w wsClient sectionIndex).trace).Sublist
      (w.lectures sectionIndex).enum ∧
    sentMessages (collectTranscriptsForSection w wsClient sectionIndex).trace =
      (processedLectures (collectTranscriptsForSection w wsClient sectionIndex).trace).filterMap
        (fun entry =>
          ((w.item entry.1).unit (w.sectionTitle sectionIndex) entry.2).map fun data =>
            { data := data,
              messageId := WebSocketClient.newMessageId (w.item entry.1).send.now }) ∧
    acknowledgedInTurn
      (communications (collectTranscriptsForSection w wsClient sectionIndex).trace) = true ∧
    (∀ (i : Nat) (lecture : Node),
      (w.item i).transcriptControl = none ∨ transcriptTexts (w.item i).domTexts = [] →
      (w.item i).unit (w.sectionTitle sectionIndex) lecture = none) ∧
    (∀ (i : Nat) (lecture sectionEl : Node),
      (processLecture (w.item i) wsClient lecture sectionEl (w.sectionTitle sectionIndex) 0
        i).promise = .fulfilled ()) := by
  have hcomm : communications (collectTranscriptsForSection w wsClient sectionIndex).trace =
      (processedLectures (collectTranscriptsForSection w wsClient sectionIndex).trace).flatMap
        (w.exchange wsClient (w.sectionTitle sectionIndex)) ∧
      (processedLectures (collectTranscriptsForSection w wsClient sectionIndex).trace).Sublist
        (w.lectures sectionIndex).enum := by
    rcases collect_cases w wsClient sectionIndex with ⟨h1, h2⟩ | ⟨sec, pre, _, hc, hp, hrun⟩
    · rw [h1, h2]; exact ⟨rfl, List.nil_sublist _⟩
    · rw [hrun]
      simp only [communications_append, processedLectures_append, hc, hp, List.nil_append]
      exact ⟨communications_collectLoop _ _ _ _ _ _ _ _,
        processedLectures_collectLoop_sublist _ _ _ _ _ _ _ _⟩
  obtain ⟨hsent, hack⟩ := exchanges_functioning w wsClient (w.sectionTitle sectionIndex) hconn
    (processedLectures (collectTranscriptsForSection w wsClient sectionIndex).trace)
  refine ⟨hcomm.2, ?_, ?_, ?_, ?_⟩
  · rw [← sentMessages_communications, hcomm.1, hsent]
  · rw [hcomm.1, hack]
  · intro i lecture h
    exact unit_none_of_no_transcript _ _ _ h
  · intro i lecture sectionEl
    exact processLecture_fulfilled _ _ _ _ _ _ _

theorem sampleItem_functioning (lectures : List Node) (i : Nat) :
    (sampleItem lectures i).send.Functioning := by
  refine ⟨⟨CONFIG.WS_URL, rfl⟩, ?_⟩
  unfold SendScript.acknowledgement
  rw [List.find?_isSome]
  exact ⟨sampleAck (1000 + i), by simp [sampleItem], by
    simp [sampleItem, sampleAck, Response.answers, WebSocketClient.newMessageId]⟩

theorem collectTranscriptsForSection_units_witness :
    (∀ i, ((sampleWorld [1, 2, 3] (some 1)).item i).send.Functioning) ∧
    sentMessages
        (collectTranscriptsForSection (sampleWorld [1, 2, 3] (some 1)) sampleClient 0).trace =
      [{ data := { action := "save_transcript", sectionTitle := "Intro", title := "A",
                   transcripts := ["Hi", "Bye"] },
         messageId := "1000" },
       { data := { action := "save_transcript", sectionTitle := "Intro", title := "C",
                   transcripts := ["Ok"] },
         messageId := "1002" }] ∧
    acknowledgedInTurn
      (communications
        (collectTranscriptsForSection (sampleWorld [1, 2, 3] (some 1)) sampleClient 0).trace) =
      true :=
  have h := collectTranscriptsForSection_units (sampleWorld [1, 2, 3] (some 1)) sampleClient 0
    (sampleItem_functioning [1, 2, 3])
  ⟨sampleItem_functioning [1, 2, 3], h.2.1.trans (by decide), h.2.2.1⟩

theorem string_length_pos_iff (t : String) : t.length > 0 ↔ t ≠ "" := by
  cases t with
  | mk data =>
    cases data with
    | nil => simp [String.length]
    | cons c cs =>
      simp only [String.length, List.length_cons, gt_iff_lt, Nat.zero_lt_succ, true_iff]
      intro h
      have := congrArg String.data h
      simp at this

/-- C8: the array `transcriptTexts` is the list of the trimmed texts of the text elements with
the empty strings removed: every entry is non-empty and neither starts nor ends with a character
that `trim` strips, the entries are in document order, every non-empty trimmed text is kept, and
when the array is empty `processLecture` transmits nothing. -/
theorem transcriptTexts_trimmed_nonempty (d : Dom) :
    transcriptTexts d =
      ((d.querySelectorAll CONFIG.SELECTORS.transcriptText).map fun el =>
        jsTrim (d.innerText el)).filter (fun t => decide (t ≠ "")) ∧
    (∀ t ∈ transcriptTexts d, t ≠ "" ∧ Trimmed t) ∧
    (transcriptTexts d).Sublist
      ((d.querySelectorAll CONFIG.SELECTORS.transcriptText).map fun el =>
        jsTrim (d.innerText el)) ∧
    (∀ el ∈ d.querySelectorAll CONFIG.SELECTORS.transcriptText,
      jsTrim (d.innerText el) ≠ "" → jsTrim (d.innerText el) ∈ transcriptTexts d) ∧
    (∀ (env : LectureEnv) (wsClient : WebSocketClient) (lecture sectionEl : Node)
        (sectionTitle : String) (offset index : Nat),
      env.domTexts = d → transcriptTexts d = [] →
      sentMessages
        (processLecture env wsClient lecture sectionEl sectionTitle offset index).trace = []) := by
  have hfilter : (fun text : String => decide (text.length > 0)) =
      fun t => decide (t ≠ "") := by
    funext t
    simp only [decide_eq_decide]
    exact string_length_pos_iff t
  have heq : transcriptTexts d =
      ((d.querySelectorAll CONFIG.SELECTORS.transcriptText).map fun el =>
        jsTrim (d.innerText el)).filter (fun t => decide (t ≠ "")) := by
    unfold transcriptTexts
    rw [hfilter]
  refine ⟨heq, ?_, ?_, ?_, ?_⟩
  · intro t ht
    rw [heq, List.mem_filter, List.mem_map] at ht
    obtain ⟨⟨el, _, hel⟩, hne⟩ := ht
    refine ⟨by simpa using hne, ?_⟩
    rw [← hel]
    exact jsTrim_trimmed _
  · rw [heq]
    exact List.filter_sublist _
  · intro el hel hne
    rw [heq, List.mem_filter]
    exact ⟨List.mem_map_of_mem _ hel, by simpa using hne⟩
  · intro env wsClient lecture sectionEl sectionTitle offset index hd hempty
    rw [← sentMessages_communications, communications_processLecture,
      unit_none_of_no_transcript env sectionTitle lecture (Or.inr (by rw [hd]; exact hempty))]
    rfl

theorem transcriptTexts_trimmed_nonempty_witness :
    transcriptTexts (sampleItem [1, 2, 3] 0).domTexts = ["Hi", "Bye"] ∧
    transcriptTexts (sampleItem [1, 2, 3] 3).domTexts = [] ∧
    sentMessages (processLecture (sampleItem [1, 2, 3] 3) sampleClient 4 100 "Intro" 0 3).trace =
      [] :=
  ⟨by decide, by decide,
    (transcriptTexts_trimmed_nonempty (sampleItem [1, 2, 3] 3).domTexts).2.2.2.2
      (sampleItem [1, 2, 3] 3) sampleClient 4 100 "Intro" 0 3 rfl (by decide)⟩

/-- C1 fails on the code: in the three-item section of `sampleWorld`, when no item is marked
current, and when the item marked current (node 9) is not in the section,
`collectTranscriptsForSection` returns without processing any item. -/
theorem collect_without_current_processes_nothing :
    (sampleWorld [1, 2, 3] none).lectures 0 = [1, 2, 3] ∧
    processedLectures
      (collectTranscriptsForSection (sampleWorld [1, 2, 3] none) sampleClient 0).trace = [] ∧
    (collectTranscriptsForSection (sampleWorld [1, 2, 3] none) sampleClient 0).promise =
      .fulfilled () ∧
    processedLectures
      (collectTranscriptsForSection (sampleWorld [1, 2, 3] (some 9)) sampleClient 0).trace = [] ∧
    (collectTranscriptsForSection (sampleWorld [1, 2, 3] (some 9)) sampleClient 0).promise =
      .fulfilled () := by
  set_option maxRecDepth 100000 in decide

/-- C2 fails on the code: in the five-item section of `sampleWorld` with the item of index 2
(node 3) marked current and every navigation succeeding, `collectTranscriptsForSection`
processes the items of index 0 to 4, not only those of index 2 to 4, and transmits a unit
for the item of index 0. -/
theorem collect_with_current_starts_at_first :
    (sampleWorld [1, 2, 3, 4, 5] (some 3)).lectures 0 = [1, 2, 3, 4, 5] ∧
    (sampleWorld [1, 2, 3, 4, 5] (some 3)).currentLecture = some 3 ∧
    processedLectures
        (collectTranscriptsForSection (sampleWorld [1, 2, 3, 4, 5] (some 3)) sampleClient
          0).trace =
      [(0, 1), (1, 2), (2, 3), (3, 4), (4, 5)] ∧
    (sentMessages
        (collectTranscriptsForSection (sampleWorld [1, 2, 3, 4, 5] (some 3)) sampleClient
          0).trace).map (fun m => m.data.title) = ["A", "C"] ∧
    (collectTranscriptsForSection (sampleWorld [1, 2, 3, 4, 5] (some 3)) sampleClient 0).promise =
      .fulfilled () := by
  set_option maxRecDepth 100000 in decide

end TranscriptCollector

/-! ## The claims on the waiter and the connection -/

namespace DOMHelper

/-- C6 (amended): with a predicate that does not throw and a click, if any, that succeeds,
`waitForElements` resolves with the matches at the first observation (the immediate check, then
one per change notification) at which the selector matches something and the predicate, when
one is supplied, holds; until then the promise is pending; when the timer expires and no
observation before it qualified, the promise is rejected with the timeout error, and only then;
after the expiry the observer is disconnected and the timer is off. -/
theorem waitForElements_first_satisfied {D α : Type} (query : D → List α) (selector : String)
    (timeout : Nat) (button : Option Node) (predicate : Option (D → List α → Bool)) (d0 : D)
    (mutations : List D) (later : List (WaitEvent D)) :
    (waitForElements query selector (totalOptions button timeout predicate)
        { dom0 := d0, events := mutations.map WaitEvent.mutation }).promise =
      (match (d0 :: mutations).find? (satisfied query predicate) with
        | some d => .fulfilled (query d)
        | none => .pending) ∧
    waitForElements query selector (totalOptions button timeout predicate)
        { dom0 := d0, events := mutations.map WaitEvent.mutation ++ WaitEvent.timeout :: later } =
      { observer := false, timer := false,
        promise :=
          match (d0 :: mutations).find? (satisfied query predicate) with
          | some d => .fulfilled (query d)
          | none => .rejected (timeoutMessage timeout selector) } ∧
    ((waitForElements query selector (totalOptions button timeout predicate)
        { dom0 := d0,
          events := mutations.map WaitEvent.mutation ++ WaitEvent.timeout :: later }).promise =
        .rejected (timeoutMessage timeout selector) ↔
      ∀ d ∈ d0 :: mutations, satisfied query predicate d = false) := by
  have h1 := waitForElements_total query selector timeout button predicate none (Or.inr rfl) d0
    mutations []
  have h2 := waitForElements_total query selector timeout button predicate none (Or.inr rfl) d0
    mutations (WaitEvent.timeout :: later)
  rw [List.append_nil] at h1
  rw [h1, h2]
  cases hf : (d0 :: mutations).find? (satisfied query predicate) with
  | some d =>
    refine ⟨rfl, rfl, ?_⟩
    have hd := List.find?_some hf
    have hm := List.mem_of_find?_eq_some hf
    constructor
    · intro h; exact PromiseState.noConfusion h
    · intro h
      rw [h d hm] at hd
      exact absurd hd (by decide)
  | none =>
    have hstep : (WaitEvent.timeout :: later).foldl
        (dispatch query selector (totalOptions button timeout predicate))
        { observer := true, timer := true, promise := .pending } =
        { observer := false, timer := false,
          promise := .rejected (timeoutMessage timeout selector) } := by
      rw [List.foldl_cons]
      have : dispatch query selector (totalOptions button timeout predicate)
          ({ observer := true, timer := true, promise := .pending } : WaitState α)
          WaitEvent.timeout =
          { observer := false, timer := false,
            promise := .rejected (timeoutMessage timeout selector) } := by
        simp [dispatch, onTimeout, cleanup, PromiseState.settle, totalOptions]
      rw [this]
      exact foldl_dispatch_idle _ _ _ _ _
    refine ⟨rfl, hstep, ?_⟩
    simp only [hstep, true_iff]
    intro d hd
    have := List.find?_eq_none.mp hf d hd
    simpa using this

theorem waitForElements_first_satisfied_witness :
    (waitForElements (fun d : List Node => d) "li"
        (totalOptions (some 5) 2000 (some fun _ els => decide (els.length ≥ 2)))
        { dom0 := [], events := [WaitEvent.mutation [1]] }).promise = .pending ∧
    waitForElements (fun d : List Node => d) "li"
        (totalOptions (some 5) 2000 (some fun _ els => decide (els.length ≥ 2)))
        { dom0 := [],
          events := [WaitEvent.mutation [1], WaitEvent.mutation [1, 2], WaitEvent.timeout,
            WaitEvent.mutation [1, 2, 3]] } =
      { observer := false, timer := false, promise := .fulfilled [1, 2] } ∧
    waitForElements (fun d : List Node => d) "li"
        (totalOptions (some 5) 2000 (some fun _ els => decide (els.length ≥ 2)))
        { dom0 := [],
          events := [WaitEvent.mutation [1], WaitEvent.timeout, WaitEvent.mutation [1, 2]] } =
      { observer := false, timer := false, promise := .rejected (timeoutMessage 2000 "li") } :=
  ⟨(waitForElements_first_satisfied (fun d : List Node => d) "li" 2000 (some 5)
      (some fun _ els => decide (els.length ≥ 2)) [] [[1]] []).1,
    (waitForElements_first_satisfied (fun d : List Node => d) "li" 2000 (some 5)
      (some fun _ els => decide (els.length ≥ 2)) [] [[1], [1, 2]]
      [WaitEvent.mutation [1, 2, 3]]).2.1,
    (waitForElements_first_satisfied (fun d : List Node => d) "li" 2000 (some 5)
      (some fun _ els => decide (els.length ≥ 2)) [] [[1]] [WaitEvent.mutation [1, 2]]).2.1⟩

/-- C6 as stated fails: a predicate that holds of the empty match set (it ignores the
matches) holds at the immediate check, yet `waitForElements` does not resolve there and is
rejected when the timer expires. -/
theorem waitForElements_predicate_alone_counterexample :
    (fun (_ : List Node) (_ : List Node) => true) [] [] = true ∧
    (waitForElements (fun d : List Node => d) "li"
        (totalOptions none 2000 (some fun _ _ => true))
        { dom0 := [], events := [WaitEvent.timeout] }).promise =
      .rejected (timeoutMessage 2000 "li") := by
  decide

end DOMHelper

namespace WebSocketClient

theorem send_foldl_transmitted {P : Type} (messageId : String) (events : List SocketEvent) :
    ∀ s : SendState P, (events.foldl (Send.dispatch messageId) s).transmitted = s.transmitted := by
  induction events with
  | nil => intro s; rfl
  | cons e es ih =>
    intro s
    rw [List.foldl_cons, ih]
    cases e with
    | message r =>
      simp only [Send.dispatch, Send.handleMessage]
      split
      · split
        · rfl
        · split <;> rfl
      · rfl
    | timeout =>
      simp only [Send.dispatch, Send.onTimeout]
      split <;> rfl

/-- C5: a healthy `sendWithResponse` call transmits its data with the `messageId` `m`; as long
as no inbound message carries `m` the promise stays pending with the listener and the timer
registered and `cleanup` not run; the promise resolves with the first inbound message that
carries `m`; when the timer expires first, it is rejected with `Socket response timeout`; in
both cases `cleanup` has run exactly once, whatever arrives afterwards. -/
theorem sendWithResponse_correlates {P : Type} (client : WebSocketClient)
    (h : client.isHealthy = true) (data : P) (now : Nat) (messages : List Response)
    (later : List SocketEvent) :
    sendWithResponse client data { now := now, events := messages.map SocketEvent.message } =
      (match messages.find? (Response.answers (newMessageId now)) with
        | some r =>
          { listener := false, timer := false, cleanups := 1,
            transmitted := some { data := data, messageId := newMessageId now },
            promise := .fulfilled r }
        | none =>
          { listener := true, timer := true, cleanups := 0,
            transmitted := some { data := data, messageId := newMessageId now },
            promise := .pending }) ∧
    sendWithResponse client data
        { now := now, events := messages.map SocketEvent.message ++ SocketEvent.timeout :: later } =
      { listener := false, timer := false, cleanups := 1,
        transmitted := some { data := data, messageId := newMessageId now },
        promise :=
          match messages.find? (Response.answers (newMessageId now)) with
          | some r => .fulfilled r
          | none => .rejected "Socket response timeout" } := by
  have h1 := sendWithResponse_messages client h data now messages []
  have h2 := sendWithResponse_messages client h data now messages (SocketEvent.timeout :: later)
  rw [List.append_nil] at h1
  rw [h1, h2]
  cases messages.find? (Response.answers (newMessageId now)) with
  | some r => exact ⟨rfl, rfl⟩
  | none =>
    refine ⟨rfl, ?_⟩
    rw [List.foldl_cons]
    have : Send.dispatch (newMessageId now)
        ({ listener := true, timer := true, cleanups := 0,
           transmitted := some { data := data, messageId := newMessageId now },
           promise := .pending } : SendState P) SocketEvent.timeout =
        { listener := false, timer := false, cleanups := 1,
          transmitted := some { data := data, messageId := newMessageId now },
          promise := .rejected "Socket response timeout" } := by
      simp [Send.dispatch, Send.onTimeout, Send.cleanup, PromiseState.settle]
    rw [this]
    exact send_dispatch_idle _ _ _ rfl rfl

/-- C4 (amended): two healthy `sendWithResponse` calls transmit their data with the decimal
numerals of the clock values read at the calls as `messageId`; the two `messageId`s differ
exactly when the two clock values differ. -/
theorem sendWithResponse_messageIds {P : Type} (client : WebSocketClient)
    (h : client.isHealthy = true) (data1 data2 : P) (env1 env2 : SendEnv) :
    (sendWithResponse client data1 env1).transmitted =
      some { data := data1, messageId := toString env1.now } ∧
    (sendWithResponse client data2 env2).transmitted =
      some { data := data2, messageId := toString env2.now } ∧
    ((sendWithResponse client data1 env1).transmitted.map (fun m => m.messageId) ≠
        (sendWithResponse client data2 env2).transmitted.map (fun m => m.messageId) ↔
      env1.now ≠ env2.now) := by
  have key : ∀ (data : P) (env : SendEnv), (sendWithResponse client data env).transmitted =
      some { data := data, messageId := toString env.now } := by
    intro data env
    unfold sendWithResponse
    simp only [h, Bool.not_true, Bool.false_eq_true, if_false]
    rw [send_foldl_transmitted]
    rfl
  refine ⟨key data1 env1, key data2 env2, ?_⟩
  rw [key data1 env1, key data2 env2]
  simp only [Option.map_some', ne_eq, Option.some.injEq]
  constructor
  · intro hne heq
    exact hne (by rw [heq])
  · intro hne heq
    exact hne (toString_nat_injective _ _ heq)

theorem sendWithResponse_messageIds_witness :
    (sendWithResponse sampleOpenClient "first"
        { now := 1000, events := [.message (sampleAck 1000)] }).transmitted.map
        (fun m => m.messageId) ≠
      (sendWithResponse sampleOpenClient "second"
        { now := 1001, events := [] }).transmitted.map (fun m => m.messageId) :=
  (sendWithResponse_messageIds sampleOpenClient rfl "first" "second"
    { now := 1000, events := [.message (sampleAck 1000)] }
    { now := 1001, events := [] }).2.2.mpr (by decide)

/-- C4 as stated fails: two sequential calls with distinct payloads, the first one answered before
the second is made, transmit the same `messageId` when the clock returns the same value at
both. -/
theorem sendWithResponse_same_clock_counterexample :
    ("first" : String) ≠ "second" ∧
    (sendWithResponse sampleOpenClient "first"
        { now := 1000, events := [.message (sampleAck 1000)] }).promise =
      .fulfilled (sampleAck 1000) ∧
    (sendWithResponse sampleOpenClient "first"
        { now := 1000, events := [.message (sampleAck 1000)] }).transmitted.map
        (fun m => m.messageId) =
      (sendWithResponse sampleOpenClient "second"
        { now := 1000, events := [] }).transmitted.map (fun m => m.messageId) := by
  decide

theorem sendWithResponse_correlates_witness :
    sendWithResponse sampleOpenClient "payload"
        { now := 1000,
          events := [.message (sampleAck 7), .message .null, .message (.value none "raw")] } =
      { listener := true, timer := true, cleanups := 0,
        transmitted := some { data := "payload", messageId := "1000" }, promise := .pending } ∧
    sendWithResponse sampleOpenClient "payload"
        { now := 1000,
          events := [.message (sampleAck 7), .message (sampleAck 1000), .timeout,
            .message (sampleAck 1000)] } =
      { listener := false, timer := false, cleanups := 1,
        transmitted := some { data := "payload", messageId := "1000" },
        promise := .fulfilled (sampleAck 1000) } ∧
    sendWithResponse sampleOpenClient "payload"
        { now := 1000,
          events := [.message (sampleAck 7), .timeout, .message (sampleAck 1000), .timeout] } =
      { listener := false, timer := false, cleanups := 1,
        transmitted := some { data := "payload", messageId := "1000" },
        promise := .rejected "Socket response timeout" } :=
  ⟨(sendWithResponse_correlates sampleOpenClient rfl "payload" 1000
      [sampleAck 7, .null, .value none "raw"] []).1,
    (sendWithResponse_correlates sampleOpenClient rfl "payload" 1000
      [sampleAck 7, sampleAck 1000] [.message (sampleAck 1000)]).2,
    (sendWithResponse_correlates sampleOpenClient rfl "payload" 1000
      [sampleAck 7] [.message (sampleAck 1000), .timeout]).2⟩

end WebSocketClient

namespace TranscriptCollector

/-- While `startProcessing` is false and no entry is the current item, the loop skips every
entry. -/
theorem collectLoop_skips_all (w : World) (wsClient : WebSocketClient) (sectionEl : Node)
    (sectionTitle : String) (lectureArray : List Node) (currentLecture : Option Node)
    (es : List (Nat × Node)) (h : ∀ p ∈ es, some p.2 ≠ currentLecture) :
    collectLoop w wsClient sectionEl sectionTitle lectureArray currentLecture es false =
      Run.ret () := by
  induction es with
  | nil => rfl
  | cons entry rest ih =>
    obtain ⟨i, lecture⟩ := entry
    have hskip : (!false && some lecture != currentLecture) = true := by
      simpa using h (i, lecture) (List.mem_cons_self _ _)
    rw [collectLoop_skip _ _ _ _ _ _ _ _ _ _ hskip]
    exact ih (fun p hp => h p (List.mem_cons_of_mem _ hp))

/-- When the item marked current is not an item of the section (or no item is marked current),
`collectTranscriptsForSection` processes no item. -/
theorem collect_not_included (w : World) (wsClient : WebSocketClient) (sectionIndex : Nat)
    (h : includesCurrent (w.lectures sectionIndex) w.currentLecture = false) :
    processedLectures (collectTranscriptsForSection w wsClient sectionIndex).trace = [] := by
  rcases collect_cases w wsClient sectionIndex with ⟨_, h2⟩ | ⟨sec, pre, _, _, hp, hrun⟩
  · exact h2
  · rw [hrun, h]
    simp only [processedLectures_append, hp, List.nil_append]
    rw [collectLoop_skips_all]
    · rfl
    · intro p hp heq
      unfold includesCurrent at h
      rw [List.any_eq_false] at h
      have hmem : p.2 ∈ w.lectures sectionIndex := by
        obtain ⟨i, x⟩ := p
        exact List.mem_enumFrom hp |>.2.2 ▸ List.getElem_mem _
      exact h p.2 hmem (by simp [heq])

/-- When the item marked current is an item of the section, the loop starts with the first item
of the section, wherever the current item is. -/
theorem collectLoop_included_starts_at_first (w : World) (wsClient : WebSocketClient)
    (sectionEl : Node) (sectionTitle : String) (lectureArray : List Node)
    (currentLecture : Option Node) (i : Nat) (lecture : Node) (rest : List (Nat × Node)) :
    ∃ more,
      (collectLoop w wsClient sectionEl sectionTitle lectureArray currentLecture
        ((i, lecture) :: rest) true).trace = Ev.processLecture i lecture :: more := by
  rw [collectLoop_process _ _ _ _ _ _ _ _ _ _ (by simp), processLecture_trace]
  exact ⟨_, rfl⟩

end TranscriptCollector

end UdemyCrawling
